import Mathlib

/-!
Shallow embedding of the checkout / order-fulfillment subsystem of the
Ecommerce-website repository (Django app `orders/`), together with proofs of
the specified properties.

Modelling conventions:
* Money (`DecimalField`, fixed-point with 2 decimal places) is modelled as
  `ℤ` in cents; quantities and ids as `ℕ`; timestamps and durations as `ℤ`
  (seconds).  The derived `progress` of the detail serializer is a `ℚ`.
* The database is an explicit record `St`.  `transaction.atomic` is modelled
  by `create_from_cart` returning `Except`: an error means the transaction
  rolled back, i.e. the caller keeps the original state.
* Django's cache is an association list from key to (value, expiry instant);
  `cache.set key v timeout` stores `(v, now + timeout)`.
* The `post_save` signal handler (`orders/signals.py`) is modelled as the
  standalone transition function `handle_order_status_change`; checkout state
  tracks orders, items, products, carts, addresses and the two caches.
-/

namespace ECom

/-- Shipping method names: `ShippingMethod.PICKUP/CITY/REGIONAL` in
`orders/models.py`. -/
inductive SMName
  | pickup
  | city
  | regional
deriving DecidableEq, Repr

/-- Order statuses, `Order.Status` in `orders/models.py`. -/
inductive OStatus
  | pending
  | processing
  | shipped
  | delivered
deriving DecidableEq, Repr

/-- Model `ShippingMethod`: name, flat fee, lead-time bounds (durations in
seconds). -/
structure ShippingMethod where
  id : Nat
  name : SMName
  flat_fee : Int
  lead_time_min : Int
  lead_time_max : Int
deriving DecidableEq, Repr

/-- The stock-ledger fields of `Product` (`product_management/models.py`):
`seller`, `stock`, `units_sold`, plus `name` used in error messages. -/
structure Product where
  id : Nat
  sellerId : Nat
  pname : String
  stock : Nat
  units_sold : Nat
deriving DecidableEq, Repr

/-- A cart line (`CartItem`): quantity and the unit price snapshotted at
add-time.  The DB has a uniqueness constraint on (cart, product). -/
structure CartItem where
  productId : Nat
  quantity : Nat
  unit_price : Int
deriving DecidableEq, Repr

/-- Model `Cart`: its lines plus the denormalized cached `total_price`. -/
structure Cart where
  items : List CartItem
  total_price : Int
deriving DecidableEq, Repr

/-- Address payload (street/city/region/postal code). -/
structure AddrData where
  street : String
  city : String
  region : String
  postal_code : String
deriving DecidableEq, Repr

/-- The `Order` model fields relevant to checkout. -/
structure Order where
  oid : Nat
  userId : Nat
  status : OStatus
  shippingMethodId : Nat
  shipping_address : Option AddrData
  shipping_fee : Int
  total_amount : Int
  expected_delivery_date : Int
  progress_percentage : Nat
  created_at : Int
deriving DecidableEq, Repr

/-- The `OrderItem` model: quantity/unit price copied from the cart line and
`subtotal = quantity * unit_price`. -/
structure OrderItem where
  orderId : Nat
  productId : Nat
  quantity : Nat
  unit_price : Int
  subtotal : Int
deriving DecidableEq, Repr

/-- Association-list lookup (first binding wins). -/
def alookup {α β : Type} [DecidableEq α] (k : α) : List (α × β) → Option β
  | [] => none
  | (k2, v) :: rest => if k2 = k then some v else alookup k rest

/-- Association-list update: replace the binding for `k` (or prepend it). -/
def aset {α β : Type} [DecidableEq α] (k : α) (v : β) : List (α × β) → List (α × β)
  | [] => [(k, v)]
  | (k2, v2) :: rest => if k2 = k then (k, v) :: rest else (k2, v2) :: aset k v rest

/-- Cache read honouring the stored expiry instant: `cache.get`. -/
def cacheGet {α β : Type} [DecidableEq α]
    (c : List (α × (β × Int))) (k : α) (now : Int) : Option β :=
  match alookup k c with
  | some (v, expiry) => if now < expiry then some v else none
  | none => none

/-- The serialized checkout payload: each created order with its items
(the information `OrderSerializer` emits that the model tracks). -/
def Payload : Type := List (Order × List OrderItem)

instance : DecidableEq Payload := by
  unfold Payload
  infer_instance

/-- The whole persistent state visible to the checkout subsystem. -/
structure St where
  carts : List (Nat × Cart)
  products : List Product
  shippingMethods : List ShippingMethod
  addresses : List (Nat × AddrData)
  orders : List Order
  orderItems : List OrderItem
  nextOrderId : Nat
  idemCache : List ((Nat × String) × (Payload × Int))
  ordIdsCache : List (Nat × (List Nat × Int))
deriving DecidableEq

/-- Look a product up by primary key (`products[ci.product_id]`). -/
def findProduct (ps : List Product) (pid : Nat) : Option Product :=
  ps.find? (fun p => p.id == pid)

/-- Seller id of a cart line's product (`ci.product.seller_id`); `0` is a
junk default for the FK-impossible missing-product case. -/
def lineSeller (ps : List Product) (ci : CartItem) : Nat :=
  match findProduct ps ci.productId with
  | some p => p.sellerId
  | none => 0

/-- Insert into a list sorted by the `key` projection. -/
def insertBy {α : Type} (key : α → Nat) (a : α) : List α → List α
  | [] => [a]
  | b :: bs => if key a ≤ key b then a :: b :: bs else b :: insertBy key a bs

/-- Sort a list by the `key` projection; models
`order_by('product__seller__id')` (the order of lines with equal sellers is
unspecified by the database, so any comparison sort is a faithful model). -/
def sortBy {α : Type} (key : α → Nat) (l : List α) : List α :=
  l.foldr (insertBy key) []

/-- Maximal runs of consecutive elements sharing a key: `itertools.groupby`.
Each run is returned with its key. -/
def runsBy {α β : Type} [DecidableEq β] (key : α → β) : List α → List (β × List α)
  | [] => []
  | a :: as =>
    match runsBy key as with
    | [] => [(key a, [a])]
    | (b, g) :: rest =>
      if key a = b then (key a, a :: g) :: rest
      else (key a, [a]) :: (b, g) :: rest

/-- Checkout-service errors.  `valueError` is a `ValueError` (translated to
HTTP 400 by the view); `keyError` models the `KeyError` a foreign-key-less
product lookup would raise (unreachable under DB integrity, surfacing as a
500, not caught by the view). -/
inductive SvcError
  | valueError (msg : String)
  | keyError
deriving DecidableEq, Repr

/-- Step 3 of `OrderService.create_from_cart`: for each line verify
`ci.quantity <= prod.stock`, failing with `Not enough stock for <name>`. -/
def checkStock (ps : List Product) : List CartItem → Except SvcError Unit
  | [] => .ok ()
  | ci :: rest =>
    match findProduct ps ci.productId with
    | none => .error .keyError
    | some p =>
      if p.stock < ci.quantity then
        .error (.valueError ("Not enough stock for " ++ p.pname))
      else checkStock ps rest

/-- Modelled from the spec: `Order.calculate_expected_delivery` is invoked at
`orders/services.py:93` but no definition exists anywhere in the repository
sources; the spec states that non-pickup orders get
`expected_delivery_date = now + shipping_method.lead_time_min`. -/
def calculate_expected_delivery (sm : ShippingMethod) (now : Int) : Int :=
  now + sm.lead_time_min

/-- Subtotal of one cart line: `quantity * unit_price`. -/
def lineSub (ci : CartItem) : Int :=
  (ci.quantity : Int) * ci.unit_price

/-- Build the `Order` row for one seller group, as `Order.objects.create`
followed by the `total_amount` update does (the net effect of the placeholder
`total_amount=0` plus `order.save(update_fields=['total_amount'])`). -/
def mkOrder (userId : Nat) (sm : ShippingMethod) (address : Option AddrData)
    (now : Int) (oid : Nat) (group : List CartItem) : Order :=
  let is_pickup := sm.name = SMName.pickup
  { oid := oid
    userId := userId
    status := if is_pickup then .delivered else .pending
    shippingMethodId := sm.id
    shipping_address := address
    shipping_fee := sm.flat_fee
    total_amount := (group.map lineSub).sum + sm.flat_fee
    expected_delivery_date := if is_pickup then now else calculate_expected_delivery sm now
    progress_percentage := if is_pickup then 100 else 0
    created_at := now }

/-- The `OrderItem` rows of one order (`OrderItem.objects.bulk_create`). -/
def mkOrderItems (oid : Nat) (group : List CartItem) : List OrderItem :=
  group.map fun ci =>
    { orderId := oid
      productId := ci.productId
      quantity := ci.quantity
      unit_price := ci.unit_price
      subtotal := lineSub ci }

/-- Step 5: one `(Order, its OrderItems)` pair per seller group, with
sequential fresh order ids starting at `startId`. -/
def mkOrders (userId : Nat) (sm : ShippingMethod) (address : Option AddrData)
    (now : Int) : Nat → List (Nat × List CartItem) → List (Order × List OrderItem)
  | _, [] => []
  | oid, (_, g) :: rest =>
    (mkOrder userId sm address now oid g, mkOrderItems oid g)
      :: mkOrders userId sm address now (oid + 1) rest

/-- Quantity pending for a product after the per-line loop of step 5: each
line assigns `prod.stock = F('stock') - ci.quantity` on the shared product
object, so the LAST line for a product wins (the DB uniqueness constraint on
(cart, product) makes at most one line per product exist anyway). -/
def lastQtyFor (items : List CartItem) (pid : Nat) : Option Nat :=
  ((items.filter (fun ci => ci.productId == pid)).getLast?).map (·.quantity)

/-- Step 6, `Product.objects.bulk_update(...,  ['stock', 'units_sold'])`:
apply every pending `F('stock') - qty` / `F('units_sold') + qty` expression
in one batch. -/
def applyStockUpdates (items : List CartItem) (ps : List Product) : List Product :=
  ps.map fun p =>
    match lastQtyFor items p.id with
    | none => p
    | some q => { p with stock := p.stock - q, units_sold := p.units_sold + q }

/-- The user's cart lines ordered by `product__seller__id` (step 1 of
`create_from_cart`). -/
def sortedLinesOf (st : St) (userId : Nat) : List CartItem :=
  sortBy (lineSeller st.products) ((alookup userId st.carts).getD ⟨[], 0⟩).items

/-- The per-seller `(Order, OrderItems)` pairs a checkout of `items` builds. -/
def newPairsFor (st : St) (userId : Nat) (sm : ShippingMethod)
    (address : Option AddrData) (now : Int) (items : List CartItem) :
    List (Order × List OrderItem) :=
  mkOrders userId sm address now st.nextOrderId (runsBy (lineSeller st.products) items)

/-- Steps 3–7 of `create_from_cart` (after cart, self-purchase, shipping
method and address validation): stock check, cart clearing and
`recalc_total`, order creation, and the batched stock update. -/
def finishCheckout (st : St) (userId : Nat) (sm : ShippingMethod)
    (address : Option AddrData) (addresses : List (Nat × AddrData))
    (items : List CartItem) (now : Int) : Except SvcError (St × List Nat) :=
  match checkStock st.products items with
  | .error e => .error e
  | .ok _ =>
    .ok
      ({ st with
          carts := aset userId ⟨[], 0⟩ st.carts
          addresses := addresses
          products := applyStockUpdates items st.products
          orders := st.orders ++ (newPairsFor st userId sm address now items).map Prod.fst
          orderItems := st.orderItems
            ++ ((newPairsFor st userId sm address now items).map Prod.snd).flatten
          nextOrderId := st.nextOrderId + (runsBy (lineSeller st.products) items).length },
        ((newPairsFor st userId sm address now items).map Prod.fst).map (·.oid))

/-- Step 2b of `create_from_cart` for city/regional methods: the address
payload is required and upserted (`Address.objects.update_or_create`). -/
def svcWithAddress (st : St) (userId : Nat) (sm : ShippingMethod) (now : Int) :
    Option AddrData → Except SvcError (St × List Nat)
  | none => .error (.valueError "Address data required")
  | some ad =>
    finishCheckout st userId sm (some ad) (aset userId ad st.addresses)
      (sortedLinesOf st userId) now

/-- Step 2a of `create_from_cart`: the shipping-method lookup result. -/
def svcWithMethod (st : St) (userId : Nat) (addrData : Option AddrData) (now : Int) :
    Option ShippingMethod → Except SvcError (St × List Nat)
  | none => .error (.valueError "Invalid shipping method")
  | some sm =>
    if sm.name = SMName.city ∨ sm.name = SMName.regional then
      svcWithAddress st userId sm now addrData
    else
      finishCheckout st userId sm none st.addresses (sortedLinesOf st userId) now

/-- Service method `OrderService.create_from_cart(user, shipping_method_id, addr_data)`
(`orders/services.py`).  An `.error` result models the full rollback of
`transaction.atomic`. -/
def create_from_cart (st : St) (userId : Nat) (smId : Nat)
    (addrData : Option AddrData) (now : Int) : Except SvcError (St × List Nat) :=
  if sortedLinesOf st userId = [] then .error (.valueError "Cart is empty")
  else if (sortedLinesOf st userId).any (fun ci => lineSeller st.products ci == userId) then
    .error (.valueError "You cannot purchase your own product.")
  else
    svcWithMethod st userId addrData now
      (st.shippingMethods.find? (fun m => m.id == smId))

/-- HTTP responses the checkout action can produce. -/
inductive Resp
  | ok200 (p : Payload)
  | created201 (p : Payload)
  | bad400 (detail : String)
  | err500
deriving DecidableEq

/-- Serialize the freshly created orders (the queryset of step 7) from the
post-transaction state. -/
def serializeOrders (st : St) (ids : List Nat) : Payload :=
  (st.orders.filter (fun o => ids.contains o.oid)).map fun o =>
    (o, st.orderItems.filter (fun it => it.orderId == o.oid))

/-- The non-cached path of `OrderViewSet.checkout`: serializer validation
(`shipping_method` must reference an existing `ShippingMethod` — DRF's
`PrimaryKeyRelatedField`), then the service call, error translation, and
storing the payload under the idempotency key with a 3600 s timeout. -/
def checkoutBody (st : St) (userId : Nat) (key : Option String) (smId : Nat)
    (addrData : Option AddrData) (now : Int) : St × Resp :=
  if (st.shippingMethods.find? (fun m => m.id == smId)).isNone then
    (st, .bad400 "Invalid pk - object does not exist.")
  else
    match create_from_cart st userId smId addrData now with
    | .error (.valueError msg) => (st, .bad400 msg)
    | .error .keyError => (st, .err500)
    | .ok (st2, ids) =>
      let payload := serializeOrders st2 ids
      match key with
      | some k =>
        ({ st2 with idemCache := aset (userId, k) (payload, now + 3600) st2.idemCache },
          .created201 payload)
      | none => (st2, .created201 payload)

/-- View action `OrderViewSet.checkout` (`orders/views.py`): idempotency-cache lookup on
`checkout:<user.id>:<idem_key>` first, then the transactional body. -/
def checkout (st : St) (userId : Nat) (idemKey : Option String) (smId : Nat)
    (addrData : Option AddrData) (now : Int) : St × Resp :=
  match idemKey with
  | some k =>
    match cacheGet st.idemCache (userId, k) now with
    | some p => (st, .ok200 p)
    | none => checkoutBody st userId (some k) smId addrData now
  | none => checkoutBody st userId none smId addrData now

/-- One `OrderStatusHistory` row.  The list of rows is kept newest-first, so
`order_by('-timestamp').first()` is `find?` on order id. -/
structure HistoryRow where
  orderId : Nat
  status : OStatus
deriving DecidableEq, Repr

/-- Query `OrderStatusHistory.objects.filter(order=o).order_by('-timestamp').first()`. -/
def latestStatus (hs : List HistoryRow) (oid : Nat) : Option OStatus :=
  (hs.find? (fun h => h.orderId == oid)).map (·.status)

/-- The `pct_map` of `orders/signals.py` (with its `.get(status, 0)` default,
which the four-constructor type makes total). -/
def pct_map : OStatus → Nat
  | .pending => 0
  | .processing => 33
  | .shipped => 66
  | .delivered => 100

/-- The observable effects of one run of the `post_save` handler. -/
structure SignalEffects where
  histories : List HistoryRow
  progressUpdate : Option Nat
  placedEmail : Bool
  deliveredEmail : Bool
deriving DecidableEq, Repr

/-- Handler `handle_order_status_change` (`orders/signals.py`): append a history row
on creation or on a status different from the latest recorded one; on a real
(non-creation) change update `progress_percentage` via `pct_map` and, when
the new status is `delivered`, schedule the delivered e-mail post-commit.
The placed e-mail is scheduled post-commit exactly on creation. -/
def handle_order_status_change (hs : List HistoryRow) (o : Order)
    (created : Bool) : SignalEffects :=
  let last := latestStatus hs o.oid
  let differs :=
    match last with
    | some s => decide (s ≠ o.status)
    | none => false
  let hs2 := if created || differs then ⟨o.oid, o.status⟩ :: hs else hs
  let statusChanged := !created && differs
  { histories := hs2
    progressUpdate := if statusChanged then some (pct_map o.status) else none
    placedEmail := created
    deliveredEmail := statusChanged && decide (o.status = .delivered) }

/-- Serializer method `OrderDetailSerializer.get_progress` (`orders/serializers.py`): time-based
interpolation between `created_at` and `expected_delivery_date`, with the two
boundary branches of the source. -/
def get_progress (now start endT : Int) : ℚ :=
  if now ≤ start then 0
  else if endT ≤ now then 100
  else (((now - start : Int) : ℚ) / ((endT - start : Int) : ℚ)) * 100

/-- The derived `progress` field of the detail serializer for an order. -/
def serializer_progress (o : Order) (now : Int) : ℚ :=
  get_progress now o.created_at o.expected_delivery_date

/-- The `Order.objects.filter(user=user).order_by('-created_at')` id list; orders
are appended to the state chronologically, so newest-first is `reverse`. -/
def orderIdsFor (orders : List Order) (userId : Nat) : List Nat :=
  ((orders.filter (fun o => o.userId == userId)).map (·.oid)).reverse

/-- Function `get_cached_order_ids` (`orders/ord_cache.py`): serve the cached id list
when present, otherwise recompute and store it with `CACHE_TTL = 30 * 60`. -/
def get_cached_order_ids (st : St) (userId : Nat) (now : Int) : List Nat × St :=
  match cacheGet st.ordIdsCache userId now with
  | some ids => (ids, st)
  | none =>
    let ids := orderIdsFor st.orders userId
    (ids, { st with ordIdsCache := aset userId (ids, now + 30 * 60) st.ordIdsCache })

/-- Total quantity requested across all lines for one product. -/
def totalQty (items : List CartItem) (pid : Nat) : Nat :=
  ((items.filter (fun ci => ci.productId == pid)).map (·.quantity)).sum

/-- Seller of an order item's product (derived: the `Order` table has no
seller column, so an order's seller is recoverable only through its items'
products). -/
def itemSeller (ps : List Product) (it : OrderItem) : Nat :=
  match findProduct ps it.productId with
  | some p => p.sellerId
  | none => 0

/-! ### Concrete fixture states used by witnesses and counterexamples -/

/-- Pickup shipping method fixture. -/
def smPickup : ShippingMethod := ⟨5, .pickup, 2, 3600, 7200⟩

/-- City-delivery shipping method fixture. -/
def smCity : ShippingMethod := ⟨6, .city, 3, 3600, 7200⟩

/-- A state with one user (id 1) whose cart holds lines from two sellers
(ids 2 and 3), and a pre-existing (stale, empty) order-id cache entry. -/
def stW : St :=
  { carts := [(1, ⟨[⟨10, 2, 7⟩, ⟨11, 1, 9⟩], 23⟩)]
    products := [⟨10, 2, "Chair", 5, 0⟩, ⟨11, 3, "Table", 4, 1⟩]
    shippingMethods := [smPickup, smCity]
    addresses := []
    orders := []
    orderItems := []
    nextOrderId := 100
    idemCache := []
    ordIdsCache := [(1, ([], 10000))] }

/-- State `stW` with a cached (empty-payload) checkout result for `(1, "K")`. -/
def stHit : St := { stW with idemCache := [((1, "K"), ([], 500))] }

/-- State `stW` with a single line requesting more than the available stock. -/
def stShort : St := { stW with carts := [(1, ⟨[⟨10, 6, 7⟩], 42⟩)] }

/-- The payload a pickup checkout of `stW` by user 1 at time 0 produces. -/
def payloadW : Payload :=
  [(⟨100, 1, .delivered, 5, none, 2, 16, 0, 100, 0⟩, [⟨100, 10, 2, 7, 14⟩]),
   (⟨101, 1, .delivered, 5, none, 2, 11, 0, 100, 0⟩, [⟨101, 11, 1, 9, 9⟩])]

/-- Address payload fixture. -/
def adW : AddrData := ⟨"s", "c", "r", "p"⟩

/-- A throwaway order value used only to instantiate binders in witnesses. -/
def oDummy : Order := ⟨0, 0, .pending, 0, none, 0, 0, 0, 0, 0⟩

/-- The state a pickup checkout of `stW` by user 1 at time 0 produces. -/
def stPickupPost : St :=
  { carts := [(1, ⟨[], 0⟩)]
    products := [⟨10, 2, "Chair", 3, 2⟩, ⟨11, 3, "Table", 3, 2⟩]
    shippingMethods := [smPickup, smCity]
    addresses := []
    orders :=
      [⟨100, 1, .delivered, 5, none, 2, 16, 0, 100, 0⟩,
       ⟨101, 1, .delivered, 5, none, 2, 11, 0, 100, 0⟩]
    orderItems := [⟨100, 10, 2, 7, 14⟩, ⟨101, 11, 1, 9, 9⟩]
    nextOrderId := 102
    idemCache := []
    ordIdsCache := [(1, ([], 10000))] }

/-- The state a city checkout of `stW` by user 1 at time 0 produces
(orders 100 and 101, one per seller). -/
def stCityPost : St :=
  { carts := [(1, ⟨[], 0⟩)]
    products := [⟨10, 2, "Chair", 3, 2⟩, ⟨11, 3, "Table", 3, 2⟩]
    shippingMethods := [smPickup, smCity]
    addresses := [(1, adW)]
    orders :=
      [⟨100, 1, .pending, 6, some adW, 3, 17, 3600, 0, 0⟩,
       ⟨101, 1, .pending, 6, some adW, 3, 12, 3600, 0, 0⟩]
    orderItems := [⟨100, 10, 2, 7, 14⟩, ⟨101, 11, 1, 9, 9⟩]
    nextOrderId := 102
    idemCache := []
    ordIdsCache := [(1, ([], 10000))] }

/-! ### Association-list and cache lemmas -/

theorem alookup_aset_self {α β : Type} [DecidableEq α] (k : α) (v : β)
    (l : List (α × β)) : alookup k (aset k v l) = some v := by
  induction l with
  | nil => simp [aset, alookup]
  | cons hd tl ih =>
    by_cases h : hd.1 = k
    · simp [aset, alookup, h]
    · simpa [aset, alookup, h] using ih

theorem alookup_aset_ne {α β : Type} [DecidableEq α] {k k2 : α} (v : β)
    (l : List (α × β)) (h : k ≠ k2) :
    alookup k2 (aset k v l) = alookup k2 l := by
  induction l with
  | nil => simp [aset, alookup, h]
  | cons hd tl ih =>
    rcases hd with ⟨k1, v1⟩
    by_cases h1 : k1 = k
    · subst h1
      simp [aset, alookup, h]
    · simp only [aset, if_neg h1, alookup]
      by_cases h2 : k1 = k2
      · simp [h2]
      · simp [h2, ih]

theorem alookup_none_cacheGet {α β : Type} [DecidableEq α]
    (c : List (α × (β × Int))) (k : α) (now : Int)
    (h : alookup k c = none) : cacheGet c k now = none := by
  simp [cacheGet, h]

/-! ### Sorting lemmas (`sortBy` is a permutation, sorted by the key) -/

theorem insertBy_perm {α : Type} (key : α → Nat) (a : α) (l : List α) :
    List.Perm (insertBy key a l) (a :: l) := by
  induction l with
  | nil => simp [insertBy]
  | cons b bs ih =>
    by_cases h : key a ≤ key b
    · simp [insertBy, h]
    · simp only [insertBy, if_neg h]
      exact (ih.cons b).trans (List.Perm.swap a b bs)

theorem sortBy_perm {α : Type} (key : α → Nat) (l : List α) :
    List.Perm (sortBy key l) l := by
  induction l with
  | nil => simp [sortBy]
  | cons a as ih =>
    have h0 : sortBy key (a :: as) = insertBy key a (sortBy key as) := rfl
    rw [h0]
    exact (insertBy_perm key a (sortBy key as)).trans (ih.cons a)

theorem sorted_insertBy {α : Type} (key : α → Nat) (a : α) (l : List α)
    (h : l.Pairwise (fun x y => key x ≤ key y)) :
    (insertBy key a l).Pairwise (fun x y => key x ≤ key y) := by
  induction l with
  | nil => simp [insertBy]
  | cons b bs ih =>
    rcases List.pairwise_cons.mp h with ⟨hb, hbs⟩
    by_cases hab : key a ≤ key b
    · simp only [insertBy, if_pos hab]
      refine List.pairwise_cons.mpr ⟨?_, h⟩
      intro x hx
      rcases List.mem_cons.mp hx with hx1 | hx1
      · rw [hx1]
        exact hab
      · exact le_trans hab (hb x hx1)
    · simp only [insertBy, if_neg hab]
      refine List.pairwise_cons.mpr ⟨?_, ih hbs⟩
      intro x hx
      have hx2 : x ∈ a :: bs := (insertBy_perm key a bs).mem_iff.mp hx
      rcases List.mem_cons.mp hx2 with hx3 | hx3
      · rw [hx3]
        exact le_of_not_le hab
      · exact hb x hx3

theorem sorted_sortBy {α : Type} (key : α → Nat) (l : List α) :
    (sortBy key l).Pairwise (fun x y => key x ≤ key y) := by
  induction l with
  | nil => simp [sortBy]
  | cons a as ih => exact sorted_insertBy key a (sortBy key as) ih

/-! ### Lemmas about `runsBy` (the `itertools.groupby` model) -/

theorem runsBy_flatten {α β : Type} [DecidableEq β] (key : α → β) (l : List α) :
    ((runsBy key l).map Prod.snd).flatten = l := by
  induction l with
  | nil => rfl
  | cons a as ih =>
    simp only [runsBy]
    cases h : runsBy key as with
    | nil =>
      rw [h] at ih
      simp only [List.map_nil, List.flatten_nil] at ih
      simp [← ih]
    | cons hd tl =>
      rcases hd with ⟨b, g⟩
      rw [h] at ih
      simp only [List.map_cons, List.flatten_cons] at ih
      by_cases hk : key a = b
      · simp only [if_pos hk, List.map_cons, List.flatten_cons, List.cons_append, ih]
      · simp only [if_neg hk, List.map_cons, List.flatten_cons, List.singleton_append, ih]

theorem runsBy_group_key {α β : Type} [DecidableEq β] (key : α → β) (l : List α) :
    ∀ b g, (b, g) ∈ runsBy key l → ∀ x ∈ g, key x = b := by
  induction l with
  | nil =>
    intro b g hmem
    simp [runsBy] at hmem
  | cons a as ih =>
    intro b g hmem x hx
    simp only [runsBy] at hmem
    cases h : runsBy key as with
    | nil =>
      rw [h] at hmem
      simp only [List.mem_singleton, Prod.mk.injEq] at hmem
      rcases hmem with ⟨hb, hg⟩
      rw [hg] at hx
      simp only [List.mem_singleton] at hx
      rw [hx, hb]
    | cons hd tl =>
      rcases hd with ⟨b2, g2⟩
      rw [h] at hmem
      by_cases hk : key a = b2
      · simp only [if_pos hk] at hmem
        rcases List.mem_cons.mp hmem with h1 | h1
        · rcases Prod.mk.injEq .. ▸ h1 with ⟨hb, hg⟩
          rw [hg] at hx
          rcases List.mem_cons.mp hx with h2 | h2
          · rw [h2, hb]
          · have := ih b2 g2 (h ▸ List.mem_cons_self _ _) x h2
            rw [this, ← hk, hb]
        · exact ih b g (h ▸ List.mem_cons_of_mem _ h1) x hx
      · simp only [if_neg hk] at hmem
        rcases List.mem_cons.mp hmem with h1 | h1
        · rcases Prod.mk.injEq .. ▸ h1 with ⟨hb, hg⟩
          rw [hg] at hx
          simp only [List.mem_singleton] at hx
          rw [hx, hb]
        · exact ih b g (h ▸ h1) x hx

theorem runsBy_group_ne_nil {α β : Type} [DecidableEq β] (key : α → β) (l : List α) :
    ∀ b g, (b, g) ∈ runsBy key l → g ≠ [] := by
  induction l with
  | nil =>
    intro b g hmem
    simp [runsBy] at hmem
  | cons a as ih =>
    intro b g hmem
    simp only [runsBy] at hmem
    cases h : runsBy key as with
    | nil =>
      rw [h] at hmem
      simp only [List.mem_singleton, Prod.mk.injEq] at hmem
      rw [hmem.2]
      simp
    | cons hd tl =>
      rcases hd with ⟨b2, g2⟩
      rw [h] at hmem
      by_cases hk : key a = b2
      · simp only [if_pos hk] at hmem
        rcases List.mem_cons.mp hmem with h1 | h1
        · rcases Prod.mk.injEq .. ▸ h1 with ⟨_, hg⟩
          rw [hg]
          simp
        · exact ih b g (h ▸ List.mem_cons_of_mem _ h1)
      · simp only [if_neg hk] at hmem
        rcases List.mem_cons.mp hmem with h1 | h1
        · rcases Prod.mk.injEq .. ▸ h1 with ⟨_, hg⟩
          rw [hg]
          simp
        · exact ih b g (h ▸ h1)

theorem runsBy_group_sub {α β : Type} [DecidableEq β] (key : α → β) (l : List α)
    (b : β) (g : List α) (hmem : (b, g) ∈ runsBy key l) : ∀ x ∈ g, x ∈ l := by
  intro x hx
  have h1 : x ∈ ((runsBy key l).map Prod.snd).flatten :=
    List.mem_flatten.mpr ⟨g, List.mem_map_of_mem Prod.snd hmem, hx⟩
  rwa [runsBy_flatten] at h1

theorem runsBy_keys_sorted {α : Type} (key : α → Nat) (l : List α)
    (h : l.Pairwise (fun x y => key x ≤ key y)) :
    (runsBy key l).Pairwise (fun r s => r.1 < s.1) := by
  induction l with
  | nil => simp [runsBy]
  | cons a as ih =>
    rcases List.pairwise_cons.mp h with ⟨ha, has⟩
    have ihs := ih has
    simp only [runsBy]
    cases hr : runsBy key as with
    | nil => simp
    | cons hd tl =>
      rcases hd with ⟨b, g⟩
      rw [hr] at ihs
      by_cases hk : key a = b
      · simp only [if_pos hk]
        refine List.pairwise_cons.mpr ⟨?_, (List.pairwise_cons.mp ihs).2⟩
        intro s hs
        have hb := (List.pairwise_cons.mp ihs).1 s hs
        simpa [hk] using hb
      · simp only [if_neg hk]
        have hgne : g ≠ [] :=
          runsBy_group_ne_nil key as b g (hr ▸ List.mem_cons_self _ _)
        obtain ⟨x, hxg⟩ := List.exists_mem_of_ne_nil g hgne
        have hxb : key x = b :=
          runsBy_group_key key as b g (hr ▸ List.mem_cons_self _ _) x hxg
        have hxas : x ∈ as :=
          runsBy_group_sub key as b g (hr ▸ List.mem_cons_self _ _) x hxg
        have hab : key a ≤ b := hxb ▸ ha x hxas
        have hlt : key a < b := lt_of_le_of_ne hab hk
        refine List.pairwise_cons.mpr ⟨?_, ihs⟩
        intro s hs
        rcases List.mem_cons.mp hs with h1 | h1
        · rw [h1]
          exact hlt
        · exact lt_trans hlt ((List.pairwise_cons.mp ihs).1 s h1)

theorem runsBy_keys_mem {α β : Type} [DecidableEq β] (key : α → β) (l : List α)
    (b : β) : b ∈ (runsBy key l).map Prod.fst ↔ b ∈ l.map key := by
  constructor
  · intro h
    rcases List.mem_map.mp h with ⟨⟨b2, g⟩, hmem, hfst⟩
    have hgne : g ≠ [] := runsBy_group_ne_nil key l b2 g hmem
    obtain ⟨x, hxg⟩ := List.exists_mem_of_ne_nil g hgne
    have hxb : key x = b2 := runsBy_group_key key l b2 g hmem x hxg
    have hxl : x ∈ l := runsBy_group_sub key l b2 g hmem x hxg
    exact List.mem_map.mpr ⟨x, hxl, by simp only [hxb]; exact hfst⟩
  · intro h
    rcases List.mem_map.mp h with ⟨x, hxl, hxb⟩
    have h1 : x ∈ ((runsBy key l).map Prod.snd).flatten := by
      rw [runsBy_flatten]
      exact hxl
    rcases List.mem_flatten.mp h1 with ⟨g, hg, hxg⟩
    rcases List.mem_map.mp hg with ⟨⟨b2, g2⟩, hmem, hsnd⟩
    have hg2 : g2 = g := hsnd
    rw [hg2] at hmem
    have hxb2 : key x = b2 := runsBy_group_key key l b2 g hmem x hxg
    refine List.mem_map.mpr ⟨(b2, g), hmem, ?_⟩
    rw [← hxb, hxb2]

theorem runsBy_length_eq_card {α : Type} (key : α → Nat) (l : List α)
    (h : l.Pairwise (fun x y => key x ≤ key y)) :
    (runsBy key l).length = (l.map key).toFinset.card := by
  have hnd : ((runsBy key l).map Prod.fst).Nodup := by
    refine List.Pairwise.map Prod.fst ?_ (runsBy_keys_sorted key l h)
    intro r s hrs
    exact ne_of_lt hrs
  have hlen : ((runsBy key l).map Prod.fst).toFinset.card
      = ((runsBy key l).map Prod.fst).length := List.toFinset_card_of_nodup hnd
  have hset : ((runsBy key l).map Prod.fst).toFinset = (l.map key).toFinset := by
    ext b
    simp only [List.mem_toFinset]
    exact runsBy_keys_mem key l b
  rw [← List.length_map (runsBy key l) Prod.fst, ← hlen, hset]

/-! ### Stock-check and stock-update lemmas -/

theorem findProduct_id (ps : List Product) (pid : Nat) (p : Product)
    (h : findProduct ps pid = some p) : p.id = pid := by
  have h1 := List.find?_some h
  simpa using h1

theorem findProduct_mem (ps : List Product) (pid : Nat) (p : Product)
    (h : findProduct ps pid = some p) : p ∈ ps :=
  List.mem_of_find?_eq_some h

theorem checkStock_error_iff (ps : List Product) (items : List CartItem)
    (hex : ∀ ci ∈ items, (findProduct ps ci.productId).isSome) :
    (∃ msg, checkStock ps items = .error (.valueError msg)) ↔
      ∃ ci ∈ items, ∃ p, findProduct ps ci.productId = some p ∧ p.stock < ci.quantity := by
  induction items with
  | nil =>
    simp [checkStock]
  | cons ci rest ih =>
    have hci : (findProduct ps ci.productId).isSome := hex ci (List.mem_cons_self _ _)
    rcases Option.isSome_iff_exists.mp hci with ⟨p, hp⟩
    have ihr := ih (fun c hc => hex c (List.mem_cons_of_mem _ hc))
    by_cases hs : p.stock < ci.quantity
    · constructor
      · intro _
        exact ⟨ci, List.mem_cons_self _ _, p, hp, hs⟩
      · intro _
        refine ⟨"Not enough stock for " ++ p.pname, ?_⟩
        simp [checkStock, hp, hs]
    · constructor
      · intro ⟨msg, hmsg⟩
        simp only [checkStock, hp, if_neg hs] at hmsg
        rcases ihr.mp ⟨msg, hmsg⟩ with ⟨c, hc, q, hq, hsq⟩
        exact ⟨c, List.mem_cons_of_mem _ hc, q, hq, hsq⟩
      · intro ⟨c, hc, q, hq, hsq⟩
        rcases List.mem_cons.mp hc with h1 | h1
        · subst h1
          rw [hp] at hq
          have hpq := Option.some.inj hq
          rw [← hpq] at hsq
          exact absurd hsq hs
        · rcases ihr.mpr ⟨c, h1, q, hq, hsq⟩ with ⟨msg, hmsg⟩
          refine ⟨msg, ?_⟩
          simp [checkStock, hp, hs, hmsg]

theorem checkStock_error_msg (ps : List Product) (items : List CartItem) (msg : String)
    (h : checkStock ps items = .error (.valueError msg)) :
    ∃ ci ∈ items, ∃ p, findProduct ps ci.productId = some p ∧ p.stock < ci.quantity ∧
      msg = "Not enough stock for " ++ p.pname := by
  induction items with
  | nil => simp [checkStock] at h
  | cons ci rest ih =>
    cases hp : findProduct ps ci.productId with
    | none => simp [checkStock, hp] at h
    | some p =>
      by_cases hs : p.stock < ci.quantity
      · simp only [checkStock, hp, if_pos hs, Except.error.injEq, SvcError.valueError.injEq] at h
        exact ⟨ci, List.mem_cons_self _ _, p, hp, hs, h.symm⟩
      · simp only [checkStock, hp, if_neg hs] at h
        rcases ih h with ⟨c, hc, q, hq, hsq, hm⟩
        exact ⟨c, List.mem_cons_of_mem _ hc, q, hq, hsq, hm⟩

theorem checkStock_ok_of_no_violation (ps : List Product) (items : List CartItem)
    (hex : ∀ ci ∈ items, (findProduct ps ci.productId).isSome)
    (h : ∀ ci ∈ items, ∀ p, findProduct ps ci.productId = some p → ci.quantity ≤ p.stock) :
    checkStock ps items = .ok () := by
  cases hres : checkStock ps items with
  | ok u =>
    cases u
    rfl
  | error e =>
    cases e with
    | valueError msg =>
      rcases (checkStock_error_iff ps items hex).mp ⟨msg, hres⟩ with ⟨c, hc, q, hq, hsq⟩
      exact absurd hsq (not_lt.mpr (h c hc q hq))
    | keyError =>
      exfalso
      induction items with
      | nil => simp [checkStock] at hres
      | cons ci rest ih =>
        have hci : (findProduct ps ci.productId).isSome := hex ci (List.mem_cons_self _ _)
        rcases Option.isSome_iff_exists.mp hci with ⟨p, hp⟩
        by_cases hs : p.stock < ci.quantity
        · simp [checkStock, hp, hs] at hres
        · simp only [checkStock, hp, if_neg hs] at hres
          exact ih (fun c hc => hex c (List.mem_cons_of_mem _ hc))
            (fun c hc q hq => h c (List.mem_cons_of_mem _ hc) q hq) hres

theorem filter_pid_subsingleton (items : List CartItem) (pid : Nat)
    (hnd : (items.map (·.productId)).Nodup) :
    items.filter (fun ci => ci.productId == pid) = [] ∨
      ∃ ci, items.filter (fun ci => ci.productId == pid) = [ci] ∧ ci.productId = pid := by
  induction items with
  | nil => left; rfl
  | cons ci rest ih =>
    have hnd2 : ci.productId ∉ rest.map (·.productId) ∧ (rest.map (·.productId)).Nodup := by
      rw [List.map_cons] at hnd
      exact List.nodup_cons.mp hnd
    rcases hnd2 with ⟨hnotin, hndr⟩
    by_cases hp : ci.productId = pid
    · right
      refine ⟨ci, ?_, hp⟩
      have hrest : rest.filter (fun c => c.productId == pid) = [] := by
        rw [List.filter_eq_nil_iff]
        intro c hc
        simp only [beq_iff_eq]
        intro hcp
        apply hnotin
        have hm : c.productId ∈ rest.map (·.productId) :=
          List.mem_map_of_mem (·.productId) hc
        rwa [hcp, ← hp] at hm
      simp [List.filter_cons, hp, hrest]
    · have h1 : (ci.productId == pid) = false := by simpa using hp
      simp only [List.filter_cons, h1, cond_false]
      exact ih hndr

theorem applyStockUpdates_nodup_eq (items : List CartItem) (ps : List Product)
    (hnd : (items.map (·.productId)).Nodup) :
    applyStockUpdates items ps = ps.map (fun p =>
      if items.filter (fun ci => ci.productId == p.id) = [] then p
      else { p with stock := p.stock - totalQty items p.id,
                    units_sold := p.units_sold + totalQty items p.id }) := by
  unfold applyStockUpdates
  refine List.map_congr_left ?_
  intro p _
  rcases filter_pid_subsingleton items p.id hnd with hnil | ⟨ci, hone, _⟩
  · simp [lastQtyFor, hnil]
  · simp [lastQtyFor, hone, totalQty]

/-! ### Lemmas about `mkOrders` -/

theorem mkOrderItems_orderId (oid : Nat) (g : List CartItem) :
    ∀ it ∈ mkOrderItems oid g, it.orderId = oid := by
  intro it hit
  rcases List.mem_map.mp hit with ⟨ci, _, hci⟩
  rw [← hci]

theorem mkOrderItems_fields (oid : Nat) (g : List CartItem) :
    ∀ it ∈ mkOrderItems oid g, ∃ ci ∈ g,
      it.productId = ci.productId ∧ it.quantity = ci.quantity ∧
      it.unit_price = ci.unit_price ∧ it.subtotal = lineSub ci := by
  intro it hit
  rcases List.mem_map.mp hit with ⟨ci, hci, heq⟩
  exact ⟨ci, hci, by rw [← heq], by rw [← heq], by rw [← heq], by rw [← heq]⟩

theorem mkOrders_length (u : Nat) (sm : ShippingMethod) (a : Option AddrData)
    (now : Int) : ∀ (groups : List (Nat × List CartItem)) (oid : Nat),
    (mkOrders u sm a now oid groups).length = groups.length := by
  intro groups
  induction groups with
  | nil => intro oid; rfl
  | cons hd rest ih =>
    intro oid
    rcases hd with ⟨b, g⟩
    simp [mkOrders, ih (oid + 1)]

theorem mkOrders_pair (u : Nat) (sm : ShippingMethod) (a : Option AddrData)
    (now : Int) : ∀ (groups : List (Nat × List CartItem)) (oid : Nat),
    ∀ pr ∈ mkOrders u sm a now oid groups,
      ∃ i, ∃ hi : i < groups.length,
        pr = (mkOrder u sm a now (oid + i) (groups.get ⟨i, hi⟩).2,
              mkOrderItems (oid + i) (groups.get ⟨i, hi⟩).2) := by
  intro groups
  induction groups with
  | nil =>
    intro oid pr hpr
    simp [mkOrders] at hpr
  | cons hd rest ih =>
    intro oid pr hpr
    rcases hd with ⟨b, g⟩
    simp only [mkOrders] at hpr
    rcases List.mem_cons.mp hpr with h1 | h1
    · refine ⟨0, Nat.succ_pos _, ?_⟩
      simpa using h1
    · rcases ih (oid + 1) pr h1 with ⟨i, hi, heq⟩
      refine ⟨i + 1, Nat.succ_lt_succ hi, ?_⟩
      have harith : oid + 1 + i = oid + (i + 1) := by omega
      rw [heq, harith]
      rfl

theorem mkOrders_item_oid_ge (u : Nat) (sm : ShippingMethod) (a : Option AddrData)
    (now : Int) : ∀ (groups : List (Nat × List CartItem)) (oid : Nat),
    ∀ it ∈ ((mkOrders u sm a now oid groups).map Prod.snd).flatten,
      oid ≤ it.orderId := by
  intro groups
  induction groups with
  | nil =>
    intro oid it hit
    simp [mkOrders] at hit
  | cons hd rest ih =>
    intro oid it hit
    rcases hd with ⟨b, g⟩
    simp only [mkOrders, List.map_cons, List.flatten_cons, List.mem_append] at hit
    rcases hit with h1 | h1
    · rw [mkOrderItems_orderId oid g it h1]
    · exact le_trans (Nat.le_succ oid) (ih (oid + 1) it h1)

theorem mkOrders_item_charact (u : Nat) (sm : ShippingMethod) (a : Option AddrData)
    (now : Int) : ∀ (groups : List (Nat × List CartItem)) (oid : Nat),
    ∀ it ∈ ((mkOrders u sm a now oid groups).map Prod.snd).flatten,
      ∃ i, ∃ hi : i < groups.length, it.orderId = oid + i ∧
        it ∈ mkOrderItems (oid + i) (groups.get ⟨i, hi⟩).2 := by
  intro groups
  induction groups with
  | nil =>
    intro oid it hit
    simp [mkOrders] at hit
  | cons hd rest ih =>
    intro oid it hit
    rcases hd with ⟨b, g⟩
    simp only [mkOrders, List.map_cons, List.flatten_cons, List.mem_append] at hit
    rcases hit with h1 | h1
    · refine ⟨0, Nat.succ_pos _, ?_, ?_⟩
      · simpa using mkOrderItems_orderId oid g it h1
      · simpa using h1
    · rcases ih (oid + 1) it h1 with ⟨i, hi, hoid, hmem⟩
      refine ⟨i + 1, Nat.succ_lt_succ hi, ?_, ?_⟩
      · rw [hoid]; omega
      · have harith : oid + 1 + i = oid + (i + 1) := by omega
        rw [← harith]
        simpa using hmem

theorem mkOrders_filter_items (u : Nat) (sm : ShippingMethod) (a : Option AddrData)
    (now : Int) : ∀ (groups : List (Nat × List CartItem)) (oid : Nat) (i : Nat)
      (hi : i < groups.length),
    ((mkOrders u sm a now oid groups).map Prod.snd).flatten.filter
        (fun it => it.orderId == oid + i)
      = mkOrderItems (oid + i) (groups.get ⟨i, hi⟩).2 := by
  intro groups
  induction groups with
  | nil =>
    intro oid i hi
    exact absurd hi (by simp)
  | cons hd rest ih =>
    intro oid i hi
    rcases hd with ⟨b, g⟩
    simp only [mkOrders, List.map_cons, List.flatten_cons, List.filter_append]
    cases i with
    | zero =>
      have hhead : (mkOrderItems oid g).filter (fun it => it.orderId == oid + 0)
          = mkOrderItems oid g := by
        rw [List.filter_eq_self]
        intro it hit
        simp [mkOrderItems_orderId oid g it hit]
      have htail : (((mkOrders u sm a now (oid + 1) rest).map Prod.snd).flatten).filter
          (fun it => it.orderId == oid + 0) = [] := by
        rw [List.filter_eq_nil_iff]
        intro it hit
        have := mkOrders_item_oid_ge u sm a now rest (oid + 1) it hit
        simp only [beq_iff_eq]
        omega
      rw [hhead, htail, List.append_nil]
      rfl
    | succ j =>
      have hhead : (mkOrderItems oid g).filter (fun it => it.orderId == oid + (j + 1))
          = [] := by
        rw [List.filter_eq_nil_iff]
        intro it hit
        have := mkOrderItems_orderId oid g it hit
        simp only [beq_iff_eq]
        omega
      have hj : j < rest.length := Nat.lt_of_succ_lt_succ hi
      have harith : oid + 1 + j = oid + (j + 1) := by omega
      have htail := ih (oid + 1) j hj
      rw [harith] at htail
      rw [hhead, htail, List.nil_append]
      rfl

theorem mkOrders_subtotal_sum (u : Nat) (sm : ShippingMethod) (a : Option AddrData)
    (now : Int) : ∀ (groups : List (Nat × List CartItem)) (oid : Nat),
    ((((mkOrders u sm a now oid groups).map Prod.snd).flatten).map (·.subtotal)).sum
      = (((groups.map Prod.snd).flatten).map lineSub).sum := by
  intro groups
  induction groups with
  | nil => intro oid; rfl
  | cons hd rest ih =>
    intro oid
    rcases hd with ⟨b, g⟩
    simp only [mkOrders, List.map_cons, List.flatten_cons, List.map_append,
      List.sum_append, ih (oid + 1)]
    have hg : ((mkOrderItems oid g).map (·.subtotal)) = g.map lineSub := by
      simp [mkOrderItems, List.map_map, Function.comp]
    rw [hg]

/-! ### Inversion lemmas for the service and the view -/

theorem finishCheckout_error (st : St) (u : Nat) (sm : ShippingMethod)
    (a : Option AddrData) (as : List (Nat × AddrData)) (items : List CartItem)
    (now : Int) (e : SvcError) (hcs : checkStock st.products items = .error e) :
    finishCheckout st u sm a as items now = .error e := by
  simp [finishCheckout, hcs]

theorem finishCheckout_ok (st : St) (u : Nat) (sm : ShippingMethod)
    (a : Option AddrData) (as : List (Nat × AddrData)) (items : List CartItem)
    (now : Int) (hcs : checkStock st.products items = .ok ()) :
    finishCheckout st u sm a as items now = .ok
      ({ st with
          carts := aset u ⟨[], 0⟩ st.carts
          addresses := as
          products := applyStockUpdates items st.products
          orders := st.orders ++ (newPairsFor st u sm a now items).map Prod.fst
          orderItems := st.orderItems
            ++ ((newPairsFor st u sm a now items).map Prod.snd).flatten
          nextOrderId := st.nextOrderId + (runsBy (lineSeller st.products) items).length },
        ((newPairsFor st u sm a now items).map Prod.fst).map (·.oid)) := by
  simp [finishCheckout, hcs]

theorem create_ok_elim {st : St} {u smId : Nat} {ad : Option AddrData} {now : Int}
    {st2 : St} {ids : List Nat}
    (h : create_from_cart st u smId ad now = .ok (st2, ids)) :
    ∃ sm address newAddrs,
      st.shippingMethods.find? (fun m => m.id == smId) = some sm ∧
      sortedLinesOf st u ≠ [] ∧
      checkStock st.products (sortedLinesOf st u) = .ok () ∧
      st2 = { st with
          carts := aset u ⟨[], 0⟩ st.carts
          addresses := newAddrs
          products := applyStockUpdates (sortedLinesOf st u) st.products
          orders := st.orders
            ++ (newPairsFor st u sm address now (sortedLinesOf st u)).map Prod.fst
          orderItems := st.orderItems
            ++ ((newPairsFor st u sm address now (sortedLinesOf st u)).map Prod.snd).flatten
          nextOrderId := st.nextOrderId
            + (runsBy (lineSeller st.products) (sortedLinesOf st u)).length } ∧
      ids = ((newPairsFor st u sm address now (sortedLinesOf st u)).map Prod.fst).map (·.oid) := by
  by_cases h1 : sortedLinesOf st u = []
  · rw [create_from_cart, if_pos h1] at h
    exact absurd h (by simp)
  · rw [create_from_cart, if_neg h1] at h
    by_cases h2 : (sortedLinesOf st u).any (fun ci => lineSeller st.products ci == u)
    · rw [if_pos h2] at h
      exact absurd h (by simp)
    · rw [if_neg h2] at h
      cases hsm : st.shippingMethods.find? (fun m => m.id == smId) with
      | none =>
        rw [hsm] at h
        simp [svcWithMethod] at h
      | some sm =>
        rw [hsm] at h
        simp only [svcWithMethod] at h
        by_cases h3 : sm.name = SMName.city ∨ sm.name = SMName.regional
        · rw [if_pos h3] at h
          cases ad with
          | none => simp [svcWithAddress] at h
          | some a =>
            simp only [svcWithAddress] at h
            cases hcs : checkStock st.products (sortedLinesOf st u) with
            | error e =>
              rw [finishCheckout_error st u sm (some a) (aset u a st.addresses)
                (sortedLinesOf st u) now e hcs] at h
              exact absurd h (by simp)
            | ok u2 =>
              cases u2
              rw [finishCheckout_ok st u sm (some a) (aset u a st.addresses)
                (sortedLinesOf st u) now hcs] at h
              simp only [Except.ok.injEq, Prod.mk.injEq] at h
              exact ⟨sm, some a, aset u a st.addresses, rfl, h1, rfl,
                h.1.symm, h.2.symm⟩
        · rw [if_neg h3] at h
          cases hcs : checkStock st.products (sortedLinesOf st u) with
          | error e =>
            rw [finishCheckout_error st u sm none st.addresses
              (sortedLinesOf st u) now e hcs] at h
            exact absurd h (by simp)
          | ok u2 =>
            cases u2
            rw [finishCheckout_ok st u sm none st.addresses
              (sortedLinesOf st u) now hcs] at h
            simp only [Except.ok.injEq, Prod.mk.injEq] at h
            exact ⟨sm, none, st.addresses, rfl, h1, rfl, h.1.symm, h.2.symm⟩

theorem create_empty_cart (st : St) (u smId : Nat) (ad : Option AddrData)
    (now : Int) (h : sortedLinesOf st u = []) :
    create_from_cart st u smId ad now = .error (.valueError "Cart is empty") := by
  rw [create_from_cart, if_pos h]

theorem create_self_purchase (st : St) (u smId : Nat) (ad : Option AddrData)
    (now : Int) (h1 : sortedLinesOf st u ≠ [])
    (h2 : (sortedLinesOf st u).any (fun ci => lineSeller st.products ci == u)) :
    create_from_cart st u smId ad now
      = .error (.valueError "You cannot purchase your own product.") := by
  rw [create_from_cart, if_neg h1, if_pos h2]

theorem create_invalid_shipping (st : St) (u smId : Nat) (ad : Option AddrData)
    (now : Int) (h1 : sortedLinesOf st u ≠ [])
    (h2 : ¬ (sortedLinesOf st u).any (fun ci => lineSeller st.products ci == u))
    (h3 : st.shippingMethods.find? (fun m => m.id == smId) = none) :
    create_from_cart st u smId ad now
      = .error (.valueError "Invalid shipping method") := by
  rw [create_from_cart, if_neg h1, if_neg h2, h3]
  rfl

theorem create_missing_address (st : St) (u smId : Nat) (now : Int)
    (sm : ShippingMethod) (h1 : sortedLinesOf st u ≠ [])
    (h2 : ¬ (sortedLinesOf st u).any (fun ci => lineSeller st.products ci == u))
    (h3 : st.shippingMethods.find? (fun m => m.id == smId) = some sm)
    (h4 : sm.name = SMName.city ∨ sm.name = SMName.regional) :
    create_from_cart st u smId none now
      = .error (.valueError "Address data required") := by
  rw [create_from_cart, if_neg h1, if_neg h2, h3]
  simp only [svcWithMethod, if_pos h4]
  rfl

theorem create_stock_error (st : St) (u smId : Nat) (ad : Option AddrData)
    (now : Int) (sm : ShippingMethod) (e : SvcError)
    (h1 : sortedLinesOf st u ≠ [])
    (h2 : ¬ (sortedLinesOf st u).any (fun ci => lineSeller st.products ci == u))
    (h3 : st.shippingMethods.find? (fun m => m.id == smId) = some sm)
    (h4 : (sm.name = SMName.city ∨ sm.name = SMName.regional) → ad ≠ none)
    (hcs : checkStock st.products (sortedLinesOf st u) = .error e) :
    create_from_cart st u smId ad now = .error e := by
  rw [create_from_cart, if_neg h1, if_neg h2, h3]
  simp only [svcWithMethod]
  by_cases h5 : sm.name = SMName.city ∨ sm.name = SMName.regional
  · rw [if_pos h5]
    cases ad with
    | none => exact absurd rfl (h4 h5)
    | some a =>
      simp only [svcWithAddress]
      exact finishCheckout_error st u sm (some a) (aset u a st.addresses)
        (sortedLinesOf st u) now e hcs
  · rw [if_neg h5]
    exact finishCheckout_error st u sm none st.addresses
      (sortedLinesOf st u) now e hcs

theorem checkoutBody_bad400_frame (st : St) (u : Nat) (key : Option String)
    (smId : Nat) (ad : Option AddrData) (now : Int) (st2 : St) (d : String)
    (h : checkoutBody st u key smId ad now = (st2, .bad400 d)) : st2 = st := by
  by_cases h1 : (st.shippingMethods.find? (fun m => m.id == smId)).isNone
  · rw [checkoutBody, if_pos h1] at h
    exact (Prod.mk.injEq .. ▸ h).1.symm
  · rw [checkoutBody, if_neg h1] at h
    cases hc : create_from_cart st u smId ad now with
    | error e =>
      cases e with
      | valueError msg =>
        rw [hc] at h
        exact (Prod.mk.injEq .. ▸ h).1.symm
      | keyError =>
        rw [hc] at h
        simp at h
    | ok pair =>
      rcases pair with ⟨st3, ids⟩
      rw [hc] at h
      cases key with
      | some k => simp at h
      | none => simp at h

theorem checkout_bad400_frame (st : St) (u : Nat) (key : Option String)
    (smId : Nat) (ad : Option AddrData) (now : Int) (st2 : St) (d : String)
    (h : checkout st u key smId ad now = (st2, .bad400 d)) : st2 = st := by
  cases key with
  | none => exact checkoutBody_bad400_frame st u none smId ad now st2 d h
  | some k =>
    rw [checkout] at h
    cases hcache : cacheGet st.idemCache (u, k) now with
    | some p =>
      rw [hcache] at h
      simp at h
    | none =>
      rw [hcache] at h
      exact checkoutBody_bad400_frame st u (some k) smId ad now st2 d h

/-! ### View-level auxiliary lemmas -/

theorem checkoutBody_ne_ok200 (st : St) (u : Nat) (key : Option String)
    (smId : Nat) (ad : Option AddrData) (now : Int) (p : Payload) :
    (checkoutBody st u key smId ad now).2 ≠ .ok200 p := by
  by_cases h1 : (st.shippingMethods.find? (fun m => m.id == smId)).isNone
  · rw [checkoutBody, if_pos h1]
    simp
  · rw [checkoutBody, if_neg h1]
    cases hc : create_from_cart st u smId ad now with
    | error e =>
      cases e with
      | valueError msg => simp
      | keyError => simp
    | ok pair =>
      rcases pair with ⟨st3, ids⟩
      cases key with
      | some k => simp
      | none => simp

theorem checkoutBody_idemCache_other (st : St) (u : Nat) (key : Option String)
    (smId : Nat) (ad : Option AddrData) (now : Int) (k2 : Nat × String)
    (hk2 : ∀ k, key = some k → k2 ≠ (u, k)) :
    alookup k2 ((checkoutBody st u key smId ad now).1).idemCache
      = alookup k2 st.idemCache := by
  by_cases h1 : (st.shippingMethods.find? (fun m => m.id == smId)).isNone
  · rw [checkoutBody, if_pos h1]
  · rw [checkoutBody, if_neg h1]
    cases hc : create_from_cart st u smId ad now with
    | error e =>
      cases e with
      | valueError msg => rfl
      | keyError => rfl
    | ok pair =>
      rcases pair with ⟨st3, ids⟩
      have hpres : st3.idemCache = st.idemCache := by
        rcases create_ok_elim hc with ⟨sm, address, newAddrs, _, _, _, hst3, _⟩
        rw [hst3]
      cases key with
      | some k =>
        simp only
        rw [alookup_aset_ne _ _ (fun h => hk2 k rfl h.symm), hpres]
      | none =>
        simp only
        rw [hpres]

theorem checkout_idemCache_other (st : St) (u : Nat) (key : Option String)
    (smId : Nat) (ad : Option AddrData) (now : Int) (k2 : Nat × String)
    (hk2 : ∀ k, key = some k → k2 ≠ (u, k)) :
    alookup k2 ((checkout st u key smId ad now).1).idemCache
      = alookup k2 st.idemCache := by
  cases key with
  | none => exact checkoutBody_idemCache_other st u none smId ad now k2 hk2
  | some k =>
    rw [checkout]
    cases hcache : cacheGet st.idemCache (u, k) now with
    | some p => rfl
    | none => exact checkoutBody_idemCache_other st u (some k) smId ad now k2 hk2

theorem checkoutBody_ordIdsCache (st : St) (u : Nat) (key : Option String)
    (smId : Nat) (ad : Option AddrData) (now : Int) :
    ((checkoutBody st u key smId ad now).1).ordIdsCache = st.ordIdsCache := by
  by_cases h1 : (st.shippingMethods.find? (fun m => m.id == smId)).isNone
  · rw [checkoutBody, if_pos h1]
  · rw [checkoutBody, if_neg h1]
    cases hc : create_from_cart st u smId ad now with
    | error e =>
      cases e with
      | valueError msg => rfl
      | keyError => rfl
    | ok pair =>
      rcases pair with ⟨st3, ids⟩
      have hpres : st3.ordIdsCache = st.ordIdsCache := by
        rcases create_ok_elim hc with ⟨sm, address, newAddrs, _, _, _, hst3, _⟩
        rw [hst3]
      cases key with
      | some k =>
        simp only
        exact hpres
      | none =>
        simp only
        exact hpres

theorem checkout_ordIdsCache (st : St) (u : Nat) (key : Option String)
    (smId : Nat) (ad : Option AddrData) (now : Int) :
    ((checkout st u key smId ad now).1).ordIdsCache = st.ordIdsCache := by
  cases key with
  | none => exact checkoutBody_ordIdsCache st u none smId ad now
  | some k =>
    rw [checkout]
    cases hcache : cacheGet st.idemCache (u, k) now with
    | some p => rfl
    | none => exact checkoutBody_ordIdsCache st u (some k) smId ad now

theorem create_new_orders_user {st : St} {u smId : Nat} {ad : Option AddrData}
    {now : Int} {st2 : St} {ids : List Nat}
    (h : create_from_cart st u smId ad now = .ok (st2, ids)) :
    ∀ o ∈ st2.orders.drop st.orders.length, o.userId = u := by
  rcases create_ok_elim h with ⟨sm, address, newAddrs, _, _, _, hst2, _⟩
  intro o ho
  rw [hst2] at ho
  simp only [List.drop_left] at ho
  rcases List.mem_map.mp ho with ⟨pr, hpr, hpo⟩
  rcases mkOrders_pair u sm address now _ st.nextOrderId pr hpr with ⟨i, hi, hpr2⟩
  rw [← hpo, hpr2]
  rfl

theorem create_new_orders_mk {st : St} {u smId : Nat} {ad : Option AddrData}
    {now : Int} {st2 : St} {ids : List Nat}
    (h : create_from_cart st u smId ad now = .ok (st2, ids)) :
    ∃ sm, st.shippingMethods.find? (fun m => m.id == smId) = some sm ∧
      ∀ o ∈ st2.orders.drop st.orders.length,
        ∃ address oid g, o = mkOrder u sm address now oid g := by
  rcases create_ok_elim h with ⟨sm, address, newAddrs, hsm, _, _, hst2, _⟩
  refine ⟨sm, hsm, ?_⟩
  intro o ho
  rw [hst2] at ho
  simp only [List.drop_left] at ho
  rcases List.mem_map.mp ho with ⟨pr, hpr, hpo⟩
  rcases mkOrders_pair u sm address now _ st.nextOrderId pr hpr with ⟨i, hi, hpr2⟩
  refine ⟨address, st.nextOrderId + i,
    ((runsBy (lineSeller st.products) (sortedLinesOf st u)).get ⟨i, hi⟩).2, ?_⟩
  rw [← hpo, hpr2]

theorem mkOrderItems_subtotal_sum (oid : Nat) (g : List CartItem) :
    ((mkOrderItems oid g).map (fun it => it.subtotal)).sum
      = (g.map lineSub).sum := by
  rw [mkOrderItems, List.map_map]
  rfl

theorem runsBy_get_key {α β : Type} [DecidableEq β] (key : α → β) (l : List α)
    (i : Nat) (hi : i < (runsBy key l).length) :
    ∀ x ∈ ((runsBy key l).get ⟨i, hi⟩).2,
      key x = ((runsBy key l).get ⟨i, hi⟩).1 := by
  intro x hx
  have hmem : (runsBy key l).get ⟨i, hi⟩ ∈ runsBy key l := List.get_mem _ _ hi
  have hmem2 : (((runsBy key l).get ⟨i, hi⟩).1, ((runsBy key l).get ⟨i, hi⟩).2)
      ∈ runsBy key l := by
    rw [Prod.mk.eta]
    exact hmem
  exact runsBy_group_key key l _ _ hmem2 x hx

theorem runsBy_keys_get_ne {α : Type} (key : α → Nat) (l : List α)
    (h : l.Pairwise (fun x y => key x ≤ key y)) (i j : Nat)
    (hi : i < (runsBy key l).length) (hj : j < (runsBy key l).length)
    (hne : i ≠ j) :
    ((runsBy key l).get ⟨i, hi⟩).1 ≠ ((runsBy key l).get ⟨j, hj⟩).1 := by
  have hp := runsBy_keys_sorted key l h
  rcases Nat.lt_or_ge i j with hlt | hge
  · exact ne_of_lt (List.pairwise_iff_get.mp hp ⟨i, hi⟩ ⟨j, hj⟩ hlt)
  · have hlt2 : j < i := lt_of_le_of_ne hge (Ne.symm hne)
    exact (ne_of_lt (List.pairwise_iff_get.mp hp ⟨j, hj⟩ ⟨i, hi⟩ hlt2)).symm

theorem itemSeller_eq_lineSeller (ps : List Product) (it : OrderItem)
    (ci : CartItem) (h : it.productId = ci.productId) :
    itemSeller ps it = lineSeller ps ci := by
  rw [itemSeller, lineSeller, h]

/-! ### Claim theorems -/

/-- C1: for every user and idempotency key, when a cached checkout result
exists for `(user, key)`, checkout returns that cached payload with HTTP 200
and the state (orders, items, stock, cart, caches) is completely unchanged;
on a first successful checkout with a key, the serialized payload is stored
under `(user, key)` with a 3600-second (1-hour) expiry. -/
theorem C1_idempotency_gate (st : St) (u : Nat) (k : String) (smId : Nat)
    (ad : Option AddrData) (now : Int) :
    (∀ p, cacheGet st.idemCache (u, k) now = some p →
      checkout st u (some k) smId ad now = (st, .ok200 p)) ∧
    (∀ st2 q, cacheGet st.idemCache (u, k) now = none →
      checkout st u (some k) smId ad now = (st2, .created201 q) →
      alookup (u, k) st2.idemCache = some (q, now + 3600)) := by
  constructor
  · intro p hp
    simp only [checkout, hp]
  · intro st2 q hnone hrun
    simp only [checkout, hnone] at hrun
    by_cases h1 : (st.shippingMethods.find? (fun m => m.id == smId)).isNone
    · rw [checkoutBody, if_pos h1] at hrun
      simp at hrun
    · rw [checkoutBody, if_neg h1] at hrun
      cases hc : create_from_cart st u smId ad now with
      | error e =>
        rw [hc] at hrun
        cases e with
        | valueError msg => simp at hrun
        | keyError => simp at hrun
      | ok pair =>
        rcases pair with ⟨st3, ids⟩
        rw [hc] at hrun
        simp only [Prod.mk.injEq, Resp.created201.injEq] at hrun
        rcases hrun with ⟨hst, hq⟩
        rw [← hst, ← hq]
        exact alookup_aset_self (u, k) _ st3.idemCache

/-- Witness for C1 at concrete states: a cache hit returns 200 with the
cached payload and the untouched state; a first keyed checkout leaves the
payload in the idempotency cache with expiry `0 + 3600`. -/
theorem C1_idempotency_gate_witness :
    checkout stHit 1 (some "K") 5 none 0 = (stHit, .ok200 []) ∧
    alookup (1, "K") ((checkout stW 1 (some "K") 5 none 0).1).idemCache
      = some (payloadW, 0 + 3600) := by
  constructor
  · exact (C1_idempotency_gate stHit 1 "K" 5 none 0).1 [] (by decide)
  · have h2 : checkout stW 1 (some "K") 5 none 0
        = ((checkout stW 1 (some "K") 5 none 0).1, Resp.created201 payloadW) := rfl
    exact (C1_idempotency_gate stW 1 "K" 5 none 0).2
      ((checkout stW 1 (some "K") 5 none 0).1) payloadW (by decide) h2

/-- C2: any checkout that answers 400 leaves the state exactly as it was
(no orders, no items, no stock change, cart untouched: full rollback), every
service-level validation error surfaces as a single 400 response, and the
five validation failures (empty cart, self-purchase, invalid shipping
method, missing required address, insufficient stock) each raise the
corresponding service error. -/
theorem C2_validation_rollback (st : St) (u smId : Nat) (key : Option String)
    (ad : Option AddrData) (now : Int) :
    (∀ st2 d, checkout st u key smId ad now = (st2, .bad400 d) → st2 = st) ∧
    ((∀ k, key = some k → cacheGet st.idemCache (u, k) now = none) →
      ∀ msg, create_from_cart st u smId ad now = .error (.valueError msg) →
        ∃ d, checkout st u key smId ad now = (st, .bad400 d)) ∧
    (sortedLinesOf st u = [] →
      create_from_cart st u smId ad now = .error (.valueError "Cart is empty")) ∧
    (sortedLinesOf st u ≠ [] →
      (sortedLinesOf st u).any (fun ci => lineSeller st.products ci == u) →
      create_from_cart st u smId ad now
        = .error (.valueError "You cannot purchase your own product.")) ∧
    (sortedLinesOf st u ≠ [] →
      ¬ (sortedLinesOf st u).any (fun ci => lineSeller st.products ci == u) →
      st.shippingMethods.find? (fun m => m.id == smId) = none →
      create_from_cart st u smId ad now
        = .error (.valueError "Invalid shipping method")) ∧
    (∀ sm, sortedLinesOf st u ≠ [] →
      ¬ (sortedLinesOf st u).any (fun ci => lineSeller st.products ci == u) →
      st.shippingMethods.find? (fun m => m.id == smId) = some sm →
      (sm.name = SMName.city ∨ sm.name = SMName.regional) → ad = none →
      create_from_cart st u smId ad now
        = .error (.valueError "Address data required")) ∧
    (∀ sm msg, sortedLinesOf st u ≠ [] →
      ¬ (sortedLinesOf st u).any (fun ci => lineSeller st.products ci == u) →
      st.shippingMethods.find? (fun m => m.id == smId) = some sm →
      ((sm.name = SMName.city ∨ sm.name = SMName.regional) → ad ≠ none) →
      checkStock st.products (sortedLinesOf st u) = .error (.valueError msg) →
      create_from_cart st u smId ad now = .error (.valueError msg)) := by
  refine ⟨?_, ?_, ?_, ?_, ?_, ?_, ?_⟩
  · intro st2 d h
    exact checkout_bad400_frame st u key smId ad now st2 d h
  · intro hkey msg hmsg
    have hbody : ∃ d, checkoutBody st u key smId ad now = (st, .bad400 d) := by
      by_cases h1 : (st.shippingMethods.find? (fun m => m.id == smId)).isNone
      · refine ⟨"Invalid pk - object does not exist.", ?_⟩
        rw [checkoutBody, if_pos h1]
      · refine ⟨msg, ?_⟩
        rw [checkoutBody, if_neg h1, hmsg]
    cases key with
    | none => exact hbody
    | some k =>
      rcases hbody with ⟨d, hd⟩
      refine ⟨d, ?_⟩
      simp only [checkout, hkey k rfl]
      exact hd
  · intro h
    exact create_empty_cart st u smId ad now h
  · intro h1 h2
    exact create_self_purchase st u smId ad now h1 h2
  · intro h1 h2 h3
    exact create_invalid_shipping st u smId ad now h1 h2 h3
  · intro sm h1 h2 h3 h4 h5
    rw [h5]
    exact create_missing_address st u smId now sm h1 h2 h3 h4
  · intro sm msg h1 h2 h3 h4 h5
    exact create_stock_error st u smId ad now sm (.valueError msg) h1 h2 h3 h4 h5

/-- Witness for C2 at a concrete state with insufficient stock: the response
is a single 400 whose state component is the unchanged input state, and the
service raises the stock error naming the offending product. -/
theorem C2_validation_rollback_witness :
    (checkout stShort 1 none 5 none 0).1 = stShort ∧
    create_from_cart stShort 1 5 none 0
      = .error (.valueError "Not enough stock for Chair") := by
  constructor
  · exact (C2_validation_rollback stShort 1 5 none none 0).1
      ((checkout stShort 1 none 5 none 0).1) "Not enough stock for Chair" rfl
  · exact (C2_validation_rollback stShort 1 5 none none 0).2.2.2.2.2.2
      smPickup "Not enough stock for Chair" (by decide) (by decide) rfl
      (by decide) rfl

/-- C7: the `post_save` handler appends exactly one history row when the
order was just created or its status differs from the latest recorded one,
appends nothing on a re-save with an unchanged status, sets
`progress_percentage` through the pure map {pending 0, processing 33,
shipped 66, delivered 100} on a real status change, and schedules the
delivered notification exactly on a real transition into `delivered`. -/
theorem C7_status_signal (hs : List HistoryRow) (o : Order) (created : Bool) :
    (pct_map .pending = 0 ∧ pct_map .processing = 33 ∧
      pct_map .shipped = 66 ∧ pct_map .delivered = 100) ∧
    ((created = true ∨ (∃ s, latestStatus hs o.oid = some s ∧ s ≠ o.status)) →
      (handle_order_status_change hs o created).histories
        = ⟨o.oid, o.status⟩ :: hs) ∧
    (created = false → latestStatus hs o.oid = some o.status →
      (handle_order_status_change hs o created).histories = hs ∧
      (handle_order_status_change hs o created).progressUpdate = none ∧
      (handle_order_status_change hs o created).deliveredEmail = false) ∧
    (created = false → ∀ s, latestStatus hs o.oid = some s → s ≠ o.status →
      (handle_order_status_change hs o created).progressUpdate
        = some (pct_map o.status)) ∧
    ((handle_order_status_change hs o created).deliveredEmail = true ↔
      created = false ∧ o.status = .delivered ∧
        ∃ s, latestStatus hs o.oid = some s ∧ s ≠ OStatus.delivered) := by
  refine ⟨⟨rfl, rfl, rfl, rfl⟩, ?_, ?_, ?_, ?_⟩
  · intro h
    cases created
    · rcases h with h | ⟨s, hls, hne⟩
      · exact absurd h (by simp)
      · simp [handle_order_status_change, hls, hne]
    · simp [handle_order_status_change]
  · intro hc hlast
    subst hc
    refine ⟨?_, ?_, ?_⟩ <;> simp [handle_order_status_change, hlast]
  · intro hc s hlast hne
    subst hc
    simp [handle_order_status_change, hlast, hne]
  · cases created
    · cases hlast : latestStatus hs o.oid with
      | none => simp [handle_order_status_change, hlast]
      | some s =>
        by_cases hne : s = o.status
        · subst hne
          simp [handle_order_status_change, hlast]
        · by_cases hdel : o.status = OStatus.delivered
          · simp [handle_order_status_change, hlast, hne, hdel]
          · simp [handle_order_status_change, hlast, hne, hdel]
    · simp [handle_order_status_change]

/-- Witness for C7 at a concrete run: a re-save of a pending order with an
unchanged status appends nothing, schedules nothing and updates nothing. -/
theorem C7_status_signal_witness :
    (handle_order_status_change [⟨100, .pending⟩]
        ⟨100, 1, .pending, 5, none, 2, 16, 0, 0, 0⟩ false).histories
      = [⟨100, OStatus.pending⟩] ∧
    (handle_order_status_change [⟨100, .pending⟩]
        ⟨100, 1, .pending, 5, none, 2, 16, 0, 0, 0⟩ false).progressUpdate = none ∧
    (handle_order_status_change [⟨100, .pending⟩]
        ⟨100, 1, .pending, 5, none, 2, 16, 0, 0, 0⟩ false).deliveredEmail = false :=
  (C7_status_signal [⟨100, .pending⟩]
    ⟨100, 1, .pending, 5, none, 2, 16, 0, 0, 0⟩ false).2.2.1 rfl (by decide)

/-- C8: the detail serializer's derived `progress` is the time-linear
interpolation between `created_at` and `expected_delivery_date` clamped to
[0, 100] (0 at or before creation, 100 from the expected date on), it is
computed independently of the status-driven `progress_percentage` field, and
a checkout-created non-pickup order is `pending` with
`progress_percentage = 0` while its derived progress at any time from the
expected date on is 100. -/
theorem C8_progress_duality (st : St) (u smId : Nat) (ad : Option AddrData)
    (tco : Int) (st2 : St) (ids : List Nat) (sm : ShippingMethod)
    (now start endT t : Int) (o : Order) (pct : Nat) :
    (now ≤ start → get_progress now start endT = 0) ∧
    (start < now → endT ≤ now → get_progress now start endT = 100) ∧
    (start < now → now < endT →
      get_progress now start endT
        = (((now - start : Int) : ℚ) / ((endT - start : Int) : ℚ)) * 100 ∧
      0 ≤ get_progress now start endT ∧ get_progress now start endT ≤ 100) ∧
    (serializer_progress { o with progress_percentage := pct } t
      = serializer_progress o t) ∧
    (create_from_cart st u smId ad tco = .ok (st2, ids) →
      st.shippingMethods.find? (fun m => m.id == smId) = some sm →
      sm.name ≠ SMName.pickup →
      ∀ o2 ∈ st2.orders.drop st.orders.length,
        o2.progress_percentage = 0 ∧ o2.status = .pending ∧
        (o2.created_at < t → o2.expected_delivery_date ≤ t →
          serializer_progress o2 t = 100)) := by
  refine ⟨?_, ?_, ?_, rfl, ?_⟩
  · intro h
    simp [get_progress, h]
  · intro h1 h2
    rw [get_progress, if_neg (by omega), if_pos h2]
  · intro h1 h2
    have hb : (0 : ℚ) < ((endT - start : Int) : ℚ) := by
      have hb0 : (0 : Int) < endT - start := by omega
      exact_mod_cast hb0
    have ha : (0 : ℚ) ≤ ((now - start : Int) : ℚ) := by
      have ha0 : (0 : Int) ≤ now - start := by omega
      exact_mod_cast ha0
    have hab : ((now - start : Int) : ℚ) ≤ ((endT - start : Int) : ℚ) := by
      have hab0 : (now - start : Int) ≤ endT - start := by omega
      exact_mod_cast hab0
    have hval : get_progress now start endT
        = (((now - start : Int) : ℚ) / ((endT - start : Int) : ℚ)) * 100 := by
      rw [get_progress, if_neg (by omega), if_neg (by omega)]
    refine ⟨hval, ?_, ?_⟩
    · rw [hval]
      exact mul_nonneg (div_nonneg ha (le_of_lt hb)) (by norm_num)
    · rw [hval]
      have hdiv : ((now - start : Int) : ℚ) / ((endT - start : Int) : ℚ) ≤ 1 :=
        (div_le_one hb).mpr hab
      calc (((now - start : Int) : ℚ) / ((endT - start : Int) : ℚ)) * 100
          ≤ 1 * 100 := mul_le_mul_of_nonneg_right hdiv (by norm_num)
        _ = 100 := by norm_num
  · intro hok hsm hnp o2 ho2
    rcases create_new_orders_mk hok with ⟨sm2, hsm2, hall⟩
    rw [hsm] at hsm2
    have hsmeq : sm = sm2 := Option.some.inj hsm2
    subst hsmeq
    rcases hall o2 ho2 with ⟨address, oid, g, ho⟩
    have hpick : ¬ (sm.name = SMName.pickup) := hnp
    refine ⟨?_, ?_, ?_⟩
    · rw [ho]
      simp [mkOrder, hpick]
    · rw [ho]
      simp [mkOrder, hpick]
    · intro hlt hle
      rw [serializer_progress, get_progress, if_neg (by omega), if_pos hle]

/-- Witness for C8: concrete interpolation values, and the two orders of a
concrete non-pickup checkout are pending with discrete progress 0 while
their derived progress at a time past the expected date is 100. -/
theorem C8_progress_duality_witness :
    get_progress 0 0 3600 = 0 ∧
    get_progress 20 0 10 = 100 ∧
    get_progress 5 0 10 = (((5 - 0 : Int) : ℚ) / ((10 - 0 : Int) : ℚ)) * 100 ∧
    (∀ o2 ∈ stCityPost.orders.drop stW.orders.length,
      o2.progress_percentage = 0 ∧ o2.status = OStatus.pending ∧
      (o2.created_at < 4000 → o2.expected_delivery_date ≤ 4000 →
        serializer_progress o2 4000 = 100)) := by
  refine ⟨?_, ?_, ?_, ?_⟩
  · exact (C8_progress_duality stW 1 6 (some adW) 0 stCityPost [100, 101] smCity
      0 0 3600 4000 oDummy 0).1 le_rfl
  · exact (C8_progress_duality stW 1 6 (some adW) 0 stCityPost [100, 101] smCity
      20 0 10 4000 oDummy 0).2.1 (by decide) (by decide)
  · exact ((C8_progress_duality stW 1 6 (some adW) 0 stCityPost [100, 101] smCity
      5 0 10 4000 oDummy 0).2.2.1 (by decide) (by decide)).1
  · exact (C8_progress_duality stW 1 6 (some adW) 0 stCityPost [100, 101] smCity
      0 0 3600 4000 oDummy 0).2.2.2.2 rfl rfl (by decide)

/-- C9 counterexample: a successful checkout of `stW` creates orders 100 and
101, yet the per-user order-id cache entry survives untouched, so the next
cached read serves the stale empty id list that omits both new orders —
refuting "invalidated whenever a new Order is created". -/
theorem C9_cache_invalidation_cex :
    ((checkout stW 1 none 5 none 0).1).orders.map (fun o => o.oid) = [100, 101] ∧
    (checkout stW 1 none 5 none 0).2 = .created201 payloadW ∧
    (get_cached_order_ids ((checkout stW 1 none 5 none 0).1) 1 0).1 = [] :=
  ⟨rfl, rfl, rfl⟩

/-- C9 (amended): checkout never touches the per-user order-id cache (no
invalidation on order creation); the cache layer itself stores the id list
with a 30-minute TTL on a read miss and serves the cached list on a hit. -/
theorem C9_order_ids_cache_behavior (st : St) (u u2 : Nat) (key : Option String)
    (smId : Nat) (ad : Option AddrData) (now : Int) :
    ((checkout st u key smId ad now).1).ordIdsCache = st.ordIdsCache ∧
    (cacheGet st.ordIdsCache u2 now = none →
      ((get_cached_order_ids st u2 now).2).ordIdsCache
        = aset u2 (orderIdsFor st.orders u2, now + 30 * 60) st.ordIdsCache) ∧
    (∀ ids, cacheGet st.ordIdsCache u2 now = some ids →
      get_cached_order_ids st u2 now = (ids, st)) := by
  refine ⟨checkout_ordIdsCache st u key smId ad now, ?_, ?_⟩
  · intro h
    rw [get_cached_order_ids, h]
  · intro ids h
    rw [get_cached_order_ids, h]

/-- Witness for C9's amended theorem: checkout leaves the stale cache entry
of `stW` in place; a miss (user 2) stores with expiry `0 + 30 * 60`; a hit
(user 1) serves the cached empty list. -/
theorem C9_order_ids_cache_behavior_witness :
    ((checkout stW 1 none 5 none 0).1).ordIdsCache = stW.ordIdsCache ∧
    ((get_cached_order_ids stW 2 0).2).ordIdsCache
      = aset 2 (orderIdsFor stW.orders 2, 0 + 30 * 60) stW.ordIdsCache ∧
    get_cached_order_ids stW 1 0 = ([], stW) := by
  refine ⟨?_, ?_, ?_⟩
  · exact (C9_order_ids_cache_behavior stW 1 2 none 5 none 0).1
  · exact (C9_order_ids_cache_behavior stW 1 2 none 5 none 0).2.1 (by decide)
  · exact (C9_order_ids_cache_behavior stW 1 1 none 5 none 0).2.2 [] (by decide)

/-- C10: the idempotency cache key incorporates the user id, so a payload
cached for user `u` under key `k` is never served to a different user `v`
submitting the same `k`: `v`'s entry stays absent after `u`'s checkout,
`v`'s checkout never answers 200-from-cache, and when it succeeds the orders
it creates belong to `v`. -/
theorem C10_idem_key_user_scoped (st : St) (u v : Nat) (k : String)
    (smId smId2 : Nat) (ad ad2 : Option AddrData) (now now2 : Int)
    (huv : u ≠ v) (hv : alookup (v, k) st.idemCache = none) :
    alookup (v, k) ((checkout st u (some k) smId ad now).1).idemCache = none ∧
    (∀ p, (checkout ((checkout st u (some k) smId ad now).1) v (some k) smId2
        ad2 now2).2 ≠ .ok200 p) ∧
    (∀ st3 p, checkout ((checkout st u (some k) smId ad now).1) v (some k) smId2
        ad2 now2 = (st3, .created201 p) →
      ∀ o ∈ st3.orders.drop
          ((checkout st u (some k) smId ad now).1).orders.length,
        o.userId = v) := by
  have hne : (v, k) ≠ (u, k) := by
    intro h
    exact huv (Prod.mk.injEq .. ▸ h).1.symm
  have h1 : alookup (v, k) ((checkout st u (some k) smId ad now).1).idemCache
      = none := by
    rw [checkout_idemCache_other st u (some k) smId ad now (v, k)
      (fun k3 hk3 => by
        have hk3e : k3 = k := (Option.some.inj hk3).symm
        rw [hk3e]
        exact hne)]
    exact hv
  have hmiss : cacheGet ((checkout st u (some k) smId ad now).1).idemCache
      (v, k) now2 = none :=
    alookup_none_cacheGet _ _ _ h1
  refine ⟨h1, ?_, ?_⟩
  · intro p
    rw [checkout, hmiss]
    exact checkoutBody_ne_ok200 _ v (some k) smId2 ad2 now2 p
  · intro st3 p hrun o ho
    rw [checkout, hmiss] at hrun
    set st1 := (checkout st u (some k) smId ad now).1 with hst1
    by_cases hfind : (st1.shippingMethods.find? (fun m => m.id == smId2)).isNone
    · rw [checkoutBody, if_pos hfind] at hrun
      simp at hrun
    · rw [checkoutBody, if_neg hfind] at hrun
      cases hc : create_from_cart st1 v smId2 ad2 now2 with
      | error e =>
        rw [hc] at hrun
        cases e with
        | valueError msg => simp at hrun
        | keyError => simp at hrun
      | ok pair =>
        rcases pair with ⟨st4, ids⟩
        rw [hc] at hrun
        simp only [Prod.mk.injEq, Resp.created201.injEq] at hrun
        have hordeq : st3.orders = st4.orders := by
          rw [← hrun.1]
        rw [hordeq] at ho
        exact create_new_orders_user hc o ho

/-- Witness for C10: user 1 checks out `stHit` (which already caches user 1's
`"K"` entry); user 2's entry for `"K"` remains absent. -/
theorem C10_idem_key_user_scoped_witness :
    alookup (2, "K") ((checkout stHit 1 (some "K") 5 none 0).1).idemCache
      = none :=
  (C10_idem_key_user_scoped stHit 1 2 "K" 5 5 none none 0 0 (by decide)
    (by decide)).1

/-- C3: stock reservation fails with a `ValueError` iff some cart line
requests more than its product's current stock, the error message names the
offending product, an erroring stock check aborts the rest of the
transactional step, and on success each referenced product's stock is
decremented and its units_sold incremented by the total requested quantity
in one batched pass over the product table (unreferenced products are
untouched).  The Nodup hypothesis is the (cart, product) uniqueness
constraint; the isSome hypothesis is the product foreign key. -/
theorem C3_stock_reservation (st : St) (u : Nat) (sm : ShippingMethod)
    (a : Option AddrData) (as : List (Nat × AddrData)) (items : List CartItem)
    (now : Int)
    (hnd : (items.map (fun ci => ci.productId)).Nodup)
    (hex : ∀ ci ∈ items, (findProduct st.products ci.productId).isSome) :
    ((∃ msg, checkStock st.products items = .error (.valueError msg)) ↔
      ∃ ci ∈ items, ∃ p, findProduct st.products ci.productId = some p ∧
        p.stock < ci.quantity) ∧
    (∀ msg, checkStock st.products items = .error (.valueError msg) →
      ∃ ci ∈ items, ∃ p, findProduct st.products ci.productId = some p ∧
        p.stock < ci.quantity ∧ msg = "Not enough stock for " ++ p.pname) ∧
    (∀ e, checkStock st.products items = .error e →
      finishCheckout st u sm a as items now = .error e) ∧
    (checkStock st.products items = .ok () →
      ∃ st2 ids, finishCheckout st u sm a as items now = .ok (st2, ids) ∧
        st2.products = st.products.map (fun p =>
          if items.filter (fun ci => ci.productId == p.id) = [] then p
          else { p with stock := p.stock - totalQty items p.id,
                        units_sold := p.units_sold + totalQty items p.id })) := by
  refine ⟨checkStock_error_iff st.products items hex,
    fun msg h => checkStock_error_msg st.products items msg h,
    fun e h => finishCheckout_error st u sm a as items now e h, ?_⟩
  intro h
  refine ⟨_, _, finishCheckout_ok st u sm a as items now h, ?_⟩
  exact applyStockUpdates_nodup_eq items st.products hnd

/-- Witness for C3 at concrete states: the short cart yields the
product-naming stock error and aborts `finishCheckout`; the well-stocked
cart passes the check and the batched update lands on the exact per-product
deltas. -/
theorem C3_stock_reservation_witness :
    finishCheckout stShort 1 smPickup none stShort.addresses
        (sortedLinesOf stShort 1) 0
      = .error (.valueError "Not enough stock for Chair") ∧
    (∃ ci ∈ sortedLinesOf stShort 1, ∃ p,
      findProduct stShort.products ci.productId = some p ∧
      p.stock < ci.quantity ∧
      "Not enough stock for Chair" = "Not enough stock for " ++ p.pname) ∧
    (applyStockUpdates (sortedLinesOf stW 1) stW.products).map
        (fun p => (p.stock, p.units_sold)) = [(3, 2), (3, 2)] := by
  refine ⟨?_, ?_, ?_⟩
  · exact (C3_stock_reservation stShort 1 smPickup none stShort.addresses
      (sortedLinesOf stShort 1) 0 (by decide) (by decide)).2.2.1
      (.valueError "Not enough stock for Chair") rfl
  · exact (C3_stock_reservation stShort 1 smPickup none stShort.addresses
      (sortedLinesOf stShort 1) 0 (by decide) (by decide)).2.1
      "Not enough stock for Chair" rfl
  · rfl

/-- C4: a successful checkout creates exactly one order per distinct seller
among the original cart lines; the freshly created order items are
partitioned by seller (two new items share an order exactly when their
products share a seller); and the new items' subtotals sum to the cart's
total of quantity * unit_price. -/
theorem C4_seller_partitioning (st : St) (u smId : Nat) (ad : Option AddrData)
    (now : Int) (st2 : St) (ids : List Nat)
    (h : create_from_cart st u smId ad now = .ok (st2, ids)) :
    ids.length = ((((alookup u st.carts).getD ⟨[], 0⟩).items.map
        (lineSeller st.products)).toFinset).card ∧
    (∀ it1 ∈ st2.orderItems.drop st.orderItems.length,
     ∀ it2 ∈ st2.orderItems.drop st.orderItems.length,
      (it1.orderId = it2.orderId ↔
        itemSeller st.products it1 = itemSeller st.products it2)) ∧
    ((st2.orderItems.drop st.orderItems.length).map (fun it => it.subtotal)).sum
      = (((alookup u st.carts).getD ⟨[], 0⟩).items.map lineSub).sum := by
  rcases create_ok_elim h with ⟨sm, address, newAddrs, hsm, hne, hcs, hst2, hids⟩
  have hsorted : (sortedLinesOf st u).Pairwise
      (fun x y => lineSeller st.products x ≤ lineSeller st.products y) :=
    sorted_sortBy (lineSeller st.products) _
  have hperm : List.Perm (sortedLinesOf st u)
      ((alookup u st.carts).getD ⟨[], 0⟩).items :=
    sortBy_perm (lineSeller st.products) _
  have hitems : st2.orderItems.drop st.orderItems.length
      = ((newPairsFor st u sm address now (sortedLinesOf st u)).map
          Prod.snd).flatten := by
    rw [hst2]
    simp only [List.drop_left]
  refine ⟨?_, ?_, ?_⟩
  · rw [hids, List.length_map, List.length_map, newPairsFor, mkOrders_length,
      runsBy_length_eq_card (lineSeller st.products) _ hsorted]
    congr 1
    ext b
    simp only [List.mem_toFinset]
    exact (hperm.map (lineSeller st.products)).mem_iff
  · intro it1 h1 it2 h2
    rw [hitems] at h1 h2
    rw [newPairsFor] at h1 h2
    rcases mkOrders_item_charact u sm address now _ st.nextOrderId it1 h1
      with ⟨i1, hi1, ho1, hin1⟩
    rcases mkOrders_item_charact u sm address now _ st.nextOrderId it2 h2
      with ⟨i2, hi2, ho2, hin2⟩
    rcases mkOrderItems_fields _ _ it1 hin1 with ⟨ci1, hci1, hp1, _, _, _⟩
    rcases mkOrderItems_fields _ _ it2 hin2 with ⟨ci2, hci2, hp2, _, _, _⟩
    have hs1 : itemSeller st.products it1
        = ((runsBy (lineSeller st.products) (sortedLinesOf st u)).get
            ⟨i1, hi1⟩).1 := by
      rw [itemSeller_eq_lineSeller st.products it1 ci1 hp1]
      exact runsBy_get_key (lineSeller st.products) _ i1 hi1 ci1 hci1
    have hs2 : itemSeller st.products it2
        = ((runsBy (lineSeller st.products) (sortedLinesOf st u)).get
            ⟨i2, hi2⟩).1 := by
      rw [itemSeller_eq_lineSeller st.products it2 ci2 hp2]
      exact runsBy_get_key (lineSeller st.products) _ i2 hi2 ci2 hci2
    constructor
    · intro hoo
      have hii : i1 = i2 := by
        rw [ho1, ho2] at hoo
        omega
      subst hii
      rw [hs1, hs2]
    · intro hss
      by_cases hii : i1 = i2
      · subst hii
        rw [ho1, ho2]
      · exfalso
        rw [hs1, hs2] at hss
        exact runsBy_keys_get_ne (lineSeller st.products) _ hsorted
          i1 i2 hi1 hi2 hii hss
  · rw [hitems, newPairsFor, mkOrders_subtotal_sum, runsBy_flatten]
    exact (hperm.map lineSub).sum_eq

/-- Witness for C4 at the concrete pickup checkout of `stW`: two orders for
two distinct sellers, and the new items' subtotal sum matches the cart. -/
theorem C4_seller_partitioning_witness :
    ([100, 101] : List Nat).length
      = ((((alookup 1 stW.carts).getD ⟨[], 0⟩).items.map
          (lineSeller stW.products)).toFinset).card ∧
    ((stPickupPost.orderItems.drop stW.orderItems.length).map
        (fun it => it.subtotal)).sum
      = (((alookup 1 stW.carts).getD ⟨[], 0⟩).items.map lineSub).sum := by
  have h := C4_seller_partitioning stW 1 5 none 0 stPickupPost [100, 101] rfl
  exact ⟨h.1, h.2.2⟩

/-- C5: every order a checkout creates has `shipping_fee` equal to the
chosen method's flat fee and `total_amount` equal to the sum of its own
items' subtotals plus that fee (each of the N per-seller orders carries the
full flat fee), and every created item's subtotal is `quantity *
unit_price` as copied from its cart line.  The `hwf` hypothesis says the id
counter is fresh (no pre-existing item references a not-yet-allocated id). -/
theorem C5_total_invariant (st : St) (u smId : Nat) (ad : Option AddrData)
    (now : Int) (st2 : St) (ids : List Nat)
    (h : create_from_cart st u smId ad now = .ok (st2, ids))
    (hwf : ∀ it ∈ st.orderItems, it.orderId < st.nextOrderId) :
    ∃ sm, st.shippingMethods.find? (fun m => m.id == smId) = some sm ∧
      (∀ o ∈ st2.orders.drop st.orders.length,
        o.shipping_fee = sm.flat_fee ∧
        o.total_amount
          = ((st2.orderItems.filter (fun it => it.orderId == o.oid)).map
              (fun it => it.subtotal)).sum + o.shipping_fee) ∧
      (∀ it ∈ st2.orderItems.drop st.orderItems.length,
        it.subtotal = (it.quantity : Int) * it.unit_price) := by
  rcases create_ok_elim h with ⟨sm, address, newAddrs, hsm, hne, hcs, hst2, hids⟩
  refine ⟨sm, hsm, ?_, ?_⟩
  · intro o ho
    rw [hst2] at ho
    simp only [List.drop_left] at ho
    rcases List.mem_map.mp ho with ⟨pr, hpr, hpo⟩
    rcases mkOrders_pair u sm address now _ st.nextOrderId pr hpr with ⟨i, hi, hpr2⟩
    have hoeq : o = mkOrder u sm address now (st.nextOrderId + i)
        ((runsBy (lineSeller st.products) (sortedLinesOf st u)).get ⟨i, hi⟩).2 := by
      rw [← hpo, hpr2]
    have hoid : o.oid = st.nextOrderId + i := by
      rw [hoeq]
      simp [mkOrder]
    refine ⟨by rw [hoeq]; simp [mkOrder], ?_⟩
    have hfOld : st.orderItems.filter (fun it => it.orderId == o.oid) = [] := by
      rw [List.filter_eq_nil_iff]
      intro it hit
      have hlt := hwf it hit
      rw [hoid]
      simp only [beq_iff_eq]
      omega
    have hfNew : (((newPairsFor st u sm address now (sortedLinesOf st u)).map
        Prod.snd).flatten).filter (fun it => it.orderId == o.oid)
        = mkOrderItems o.oid
            ((runsBy (lineSeller st.products) (sortedLinesOf st u)).get ⟨i, hi⟩).2 := by
      rw [hoid, newPairsFor]
      exact mkOrders_filter_items u sm address now _ st.nextOrderId i hi
    have hsplit : st2.orderItems.filter (fun it => it.orderId == o.oid)
        = mkOrderItems o.oid
            ((runsBy (lineSeller st.products) (sortedLinesOf st u)).get ⟨i, hi⟩).2 := by
      rw [hst2]
      simp only [List.filter_append, hfOld, hfNew, List.nil_append]
    rw [hsplit, mkOrderItems_subtotal_sum, hoeq]
    simp [mkOrder]
  · intro it hit
    rw [hst2] at hit
    simp only [List.drop_left] at hit
    rw [newPairsFor] at hit
    rcases mkOrders_item_charact u sm address now _ st.nextOrderId it hit
      with ⟨i, hi, hoid2, hin⟩
    rcases mkOrderItems_fields _ _ it hin with ⟨ci, hci, hp, hq, hup, hsub⟩
    rw [hsub, hq, hup]
    rfl

/-- Witness for C5 at the pickup checkout of `stW`: order 100's stored total
16 equals its item subtotal 14 plus the flat fee 2. -/
theorem C5_total_invariant_witness :
    (⟨100, 1, .delivered, 5, none, 2, 16, 0, 100, 0⟩ : Order).total_amount
      = ((stPickupPost.orderItems.filter (fun it => it.orderId == 100)).map
          (fun it => it.subtotal)).sum
        + (⟨100, 1, .delivered, 5, none, 2, 16, 0, 100, 0⟩ : Order).shipping_fee := by
  rcases C5_total_invariant stW 1 5 none 0 stPickupPost [100, 101] rfl (by decide)
    with ⟨sm, hsm, hord, _⟩
  exact (hord ⟨100, 1, .delivered, 5, none, 2, 16, 0, 100, 0⟩ (by decide)).2

/-- C6: every order of a pickup checkout is created already delivered with
progress 100 and `expected_delivery_date = now`; every order of a non-pickup
(city/regional) checkout starts pending with progress 0 and
`expected_delivery_date = now + lead_time_min` (the non-pickup date goes
through `calculate_expected_delivery`, modelled from the spec because the
method's definition is absent from the repository sources). -/
theorem C6_initial_order_state (st : St) (u smId : Nat) (ad : Option AddrData)
    (now : Int) (st2 : St) (ids : List Nat) (sm : ShippingMethod)
    (h : create_from_cart st u smId ad now = .ok (st2, ids))
    (hsm : st.shippingMethods.find? (fun m => m.id == smId) = some sm) :
    ∀ o ∈ st2.orders.drop st.orders.length,
      o.created_at = now ∧
      (sm.name = SMName.pickup →
        o.status = .delivered ∧ o.progress_percentage = 100 ∧
        o.expected_delivery_date = now) ∧
      (sm.name ≠ SMName.pickup →
        o.status = .pending ∧ o.progress_percentage = 0 ∧
        o.expected_delivery_date = now + sm.lead_time_min) := by
  rcases create_new_orders_mk h with ⟨sm2, hsm2, hall⟩
  rw [hsm] at hsm2
  have hsmeq : sm = sm2 := Option.some.inj hsm2
  subst hsmeq
  intro o ho
  rcases hall o ho with ⟨address, oid, g, hoeq⟩
  subst hoeq
  refine ⟨rfl, ?_, ?_⟩
  · intro hp
    refine ⟨?_, ?_, ?_⟩ <;> simp [mkOrder, hp]
  · intro hp
    have hp2 : ¬ (sm.name = SMName.pickup) := hp
    refine ⟨?_, ?_, ?_⟩ <;>
      simp [mkOrder, hp2, calculate_expected_delivery]

/-- Witness for C6: the concrete city order's expected date is
`0 + lead_time_min`, and the concrete pickup order's expected date is the
checkout time 0 with status delivered. -/
theorem C6_initial_order_state_witness :
    (⟨100, 1, .pending, 6, some adW, 3, 17, 3600, 0, 0⟩ : Order).expected_delivery_date
      = 0 + smCity.lead_time_min ∧
    (⟨100, 1, .delivered, 5, none, 2, 16, 0, 100, 0⟩ : Order).status
      = OStatus.delivered ∧
    (⟨100, 1, .delivered, 5, none, 2, 16, 0, 100, 0⟩ : Order).expected_delivery_date
      = 0 := by
  have hcity := (C6_initial_order_state stW 1 6 (some adW) 0 stCityPost
    [100, 101] smCity rfl rfl ⟨100, 1, .pending, 6, some adW, 3, 17, 3600, 0, 0⟩
    (by decide)).2.2 (by decide)
  have hpick := (C6_initial_order_state stW 1 5 none 0 stPickupPost
    [100, 101] smPickup rfl rfl ⟨100, 1, .delivered, 5, none, 2, 16, 0, 100, 0⟩
    (by decide)).2.1 rfl
  exact ⟨hcity.2.2, hpick.1, hpick.2.2⟩

end ECom
